import Mathlib

/-!
Signup server (`server.js`): validation, signup handlers and the email store.

A shallow embedding of `server.js`.  JavaScript strings are sequences of UTF-16
code units, JSON values are the values `JSON.parse` / `express.json()` produce,
a thrown exception is `Except.error`, and the backing file `emails.json` is an
explicit state that every handler receives and (possibly) overwrites.
-/

namespace SignupServer

/-! ## JavaScript strings and JSON values -/

/-- A JavaScript string: its UTF-16 code units. -/
abbrev JSString := List Nat

/-- UTF-16 code units of one Unicode scalar value. -/
def utf16Char (c : Char) : List Nat :=
  if c.toNat < 65536 then [c.toNat]
  else [55296 + (c.toNat - 65536) / 1024, 56320 + (c.toNat - 65536) % 1024]

/-- The JavaScript string written by a source literal. -/
def utf16 (s : String) : JSString :=
  s.toList.flatMap utf16Char

/-- A JSON value, as `JSON.parse` builds it.  A number is held as the text that
`ToString` gives for it: the server reads a number only through `ToBoolean`,
`ToString`, `===` and `JSON.stringify`, and all four are functions of that
text.  An object is its list of own properties (keys distinct, as after
parsing); its prototype is always `Object.prototype`, an array's is
`Array.prototype`. -/
inductive JSON where
  | null
  | bool (b : Bool)
  | num (text : JSString)
  | str (s : JSString)
  | arr (items : List JSON)
  | obj (fields : List (JSString × JSON))

/-- A JavaScript value met by the handlers: `none` is `undefined`. -/
abbrev JSValue := Option JSON

/-- An exception thrown while a handler runs. -/
inductive JSError where
  | typeError
  | ioError
  | syntaxError
  deriving DecidableEq

/-- Own data property of an object literal. -/
def lookup (key : JSString) : List (JSString × JSON) → JSValue
  | [] => none
  | (k, v) :: rest => if k = key then some v else lookup key rest

/-- The property read `v.key` for a key that no built-in prototype defines
(`email`, `newsletter`, `discount`): a `TypeError` on `undefined` and `null`,
the own property on an object, `undefined` on every other value. -/
def getProp (v : JSValue) (key : JSString) : Except JSError JSValue :=
  match v with
  | none => .error .typeError
  | some .null => .error .typeError
  | some (.obj fields) => .ok (lookup key fields)
  | some _ => .ok none

/-- ToBoolean. -/
def toBoolean : JSValue → Bool
  | none => false
  | some .null => false
  | some (.bool b) => b
  | some (.num text) => !(text = utf16 "0" || text = utf16 "NaN")
  | some (.str s) => !s.isEmpty
  | some (.arr _) => true
  | some (.obj _) => true

/-- Joins the pieces of `Array.prototype.join` with a comma. -/
def joinComma : List JSString → JSString
  | [] => []
  | [s] => s
  | s :: rest => s ++ utf16 "," ++ joinComma rest

mutual
/-- ToString of a JSON value.  An array goes through `Array.prototype.join`;
an object through OrdinaryToPrimitive: an own `toString` property parsed from
JSON is never callable and shadows `Object.prototype.toString`, after which
`valueOf` returns no primitive either and a `TypeError` is thrown. -/
def jsonToString : JSON → Except JSError JSString
  | .null => .ok (utf16 "null")
  | .bool b => .ok (if b then utf16 "true" else utf16 "false")
  | .num text => .ok text
  | .str s => .ok s
  | .arr items => (joinPieces items).map joinComma
  | .obj fields =>
      match lookup (utf16 "toString") fields with
      | some _ => .error .typeError
      | none => .ok (utf16 "[object Object]")
/-- The piece of every element in `Array.prototype.join`: the empty string for
`null`, ToString of the element otherwise. -/
def joinPieces : List JSON → Except JSError (List JSString)
  | [] => .ok []
  | .null :: rest => (joinPieces rest).map (fun ps => [] :: ps)
  | x :: rest =>
      match jsonToString x with
      | .error e => .error e
      | .ok s => (joinPieces rest).map (fun ps => s :: ps)
end

/-- ToString of a JavaScript value. -/
def toStringJS : JSValue → Except JSError JSString
  | none => .ok (utf16 "undefined")
  | some v => jsonToString v

/-- The strict equality `a === b` between a value read from the store and a
value read from the request: equal primitives are equal, and an array or
object is only equal to itself, which two values parsed from different texts
never are. -/
def strictEquals : JSValue → JSValue → Bool
  | none, none => true
  | some .null, some .null => true
  | some (.bool a), some (.bool b) => a == b
  | some (.num a), some (.num b) => a == b
  | some (.str a), some (.str b) => a == b
  | _, _ => false

/-- Whether a number is `Infinity`, `-Infinity` or `NaN`, read off its text. -/
def isNonFinite (text : JSString) : Bool :=
  text = utf16 "Infinity" || text = utf16 "-Infinity" || text = utf16 "NaN"

mutual
/-- The function `JSON.stringify`, its text represented by the value it parses
back to: everything comes back as it was except a number that is not finite,
which is written as `null`. -/
def jsonStringify : JSON → JSON
  | .null => .null
  | .bool b => .bool b
  | .num text => if isNonFinite text then .null else .num text
  | .str s => .str s
  | .arr items => .arr (stringifyItems items)
  | .obj fields => .obj (stringifyFields fields)
/-- The elements of an array under `JSON.stringify`. -/
def stringifyItems : List JSON → List JSON
  | [] => []
  | x :: rest => jsonStringify x :: stringifyItems rest
/-- The properties of an object under `JSON.stringify`. -/
def stringifyFields : List (JSString × JSON) → List (JSString × JSON)
  | [] => []
  | (k, v) :: rest => (k, jsonStringify v) :: stringifyFields rest
end

/-! ## The regular expression of `isValidEmail` -/

/-- The class escape `\s`: WhiteSpace and LineTerminator code units. -/
def isWhiteSpace (c : Nat) : Bool :=
  c = 9 || c = 10 || c = 11 || c = 12 || c = 13 || c = 32 || c = 160 ||
  c = 5760 || (8192 ≤ c && c ≤ 8202) || c = 8232 || c = 8233 || c = 8239 ||
  c = 8287 || c = 12288 || c = 65279

/-- A member of a character class. -/
inductive ClassItem where
  | space
  | ch (c : Nat)

/-- Whether a code unit belongs to a class member. -/
def ClassItem.test : ClassItem → Nat → Bool
  | .space, c => isWhiteSpace c
  | .ch d, c => c = d

/-- A pattern character or a negated class `[^...]`. -/
inductive Atom where
  | lit (c : Nat)
  | negClass (items : List ClassItem)

/-- Whether an atom matches one code unit. -/
def Atom.test : Atom → Nat → Bool
  | .lit d, c => c = d
  | .negClass items, c => !(items.any (fun i => i.test c))

/-- A term of a pattern: `^`, `$`, an atom, or an atom under a greedy `+`. -/
inductive Node where
  | assertStart
  | assertEnd
  | atom (a : Atom)
  | plus (a : Atom)

/-- Matcher of `a+` with continuation `k`: one code unit of `a`, then first
another round, then the continuation. -/
def plusLoop (a : Atom) (k : List Nat → Bool) : List Nat → Bool
  | [] => false
  | x :: xs => a.test x && (plusLoop a k xs || k xs)

/-- Backtracking matcher: whether the pattern matches at the current position,
`atStart` telling whether that position is the start of the input. -/
def matchFrom : List Node → Bool → List Nat → Bool
  | [], _, _ => true
  | .assertStart :: ns, atStart, s => atStart && matchFrom ns atStart s
  | .assertEnd :: ns, atStart, s => s.isEmpty && matchFrom ns atStart s
  | .atom a :: ns, _, s =>
      match s with
      | [] => false
      | x :: xs => a.test x && matchFrom ns false xs
  | .plus a :: ns, _, s => plusLoop a (matchFrom ns false) s

/-- Tries every start position from the given one on. -/
def searchFrom (nodes : List Node) (atStart : Bool) : List Nat → Bool
  | [] => matchFrom nodes atStart []
  | x :: xs => matchFrom nodes atStart (x :: xs) || searchFrom nodes false xs

/-- The method `RegExp.prototype.test` of a pattern without flags, on a string. -/
def regexTest (nodes : List Node) (s : JSString) : Bool :=
  searchFrom nodes true s

/-- The class `[^\s@]`. -/
def notSpaceAt : Atom := .negClass [.space, .ch 64]

/-- The pattern `/^[^\s@]+@[^\s@]+\.[^\s@]+$/`. -/
def emailRegex : List Node :=
  [.assertStart, .plus notSpaceAt, .atom (.lit 64), .plus notSpaceAt,
   .atom (.lit 46), .plus notSpaceAt, .assertEnd]

/-- The function `isValidEmail`: `emailRegex.test(email)`, which first converts
its argument with ToString. -/
def isValidEmail (email : JSValue) : Except JSError Bool :=
  match toStringJS email with
  | .error e => .error e
  | .ok s => .ok (regexTest emailRegex s)

/-! ## The backing file `emails.json` -/

/-- State of the backing file.  Its content is represented by what
`JSON.parse` makes of it: `garbled` is a content that is not JSON text,
`holds doc` a content that parses to `doc` (any JSON value whatsoever). -/
inductive FileState where
  | missing
  | unreadable
  | garbled
  | holds (doc : JSON)

/-- The statement `try { body } catch (error) { handler }`. -/
def tryCatch {α : Type} (body : Except JSError α) (handler : JSError → Except JSError α) :
    Except JSError α :=
  match body with
  | .ok a => .ok a
  | .error e => handler e

/-- An object literal as it comes out of `JSON.stringify`: a property whose
value is `undefined` is left out. -/
def mkObject : List (JSString × JSValue) → JSON
  | fields => .obj (fields.filterMap (fun kv => kv.2.map (fun v => (kv.1, v))))

/-- The document `{ newsletter: [], discount: [] }`. -/
def emptyDoc : JSON :=
  mkObject [(utf16 "newsletter", some (.arr [])), (utf16 "discount", some (.arr []))]

/-- The two statements `fs.readFile(EMAIL_FILE, 'utf8')` and `JSON.parse(data)`. -/
def readFileParse : FileState → Except JSError JSON
  | .missing => .error .ioError
  | .unreadable => .error .ioError
  | .garbled => .error .syntaxError
  | .holds doc => .ok doc

/-- The function `readEmails`. -/
def readEmails (file : FileState) : Except JSError JSON :=
  tryCatch (readFileParse file) (fun _ => .ok emptyDoc)

/-- The call `fs.writeFile(EMAIL_FILE, JSON.stringify(emails, null, 2))`: the
file then holds what the written text parses to; `diskOk` tells whether the
disk accepts the write. -/
def writeFile (diskOk : Bool) (emails : JSON) : Except JSError FileState :=
  if diskOk then .ok (.holds (jsonStringify emails)) else .error .ioError

/-- The function `writeEmails`: returns the state of the file afterwards. -/
def writeEmails (diskOk : Bool) (file : FileState) (emails : JSON) :
    Except JSError FileState :=
  tryCatch (writeFile diskOk emails) (fun _ => .ok file)

/-! ## The handlers -/

/-- An HTTP response: status code and JSON body. -/
structure Response where
  status : Nat
  body : JSON

/-- The call `res.status(status).json(body)`: the body goes out as
`JSON.stringify(body)`. -/
def sendJson (status : Nat) (body : JSON) : Response :=
  ⟨status, jsonStringify body⟩

/-- The loop of `Array.prototype.find`. -/
def findLoop (pred : JSON → Except JSError Bool) : List JSON → Except JSError JSValue
  | [] => .ok none
  | x :: xs =>
      match pred x with
      | .error e => .error e
      | .ok true => .ok (some x)
      | .ok false => findLoop pred xs

/-- The call `target.find(pred)`: only an array has a callable `find`. -/
def arrayFind (target : JSValue) (pred : JSON → Except JSError Bool) :
    Except JSError JSValue :=
  match target with
  | some (.arr items) => findLoop pred items
  | _ => .error .typeError

/-- The call `target.push(item)`, giving the array afterwards. -/
def arrayPush (target : JSValue) (item : JSON) : Except JSError JSON :=
  match target with
  | some (.arr items) => .ok (.arr (items ++ [item]))
  | _ => .error .typeError

/-- Replaces the value of the first property named `key`. -/
def replaceField (key : JSString) (v : JSON) : List (JSString × JSON) → List (JSString × JSON)
  | [] => []
  | (k, w) :: rest => if k = key then (k, v) :: rest else (k, w) :: replaceField key v rest

/-- The document after the array under `key` was mutated in place into `v`. -/
def withField (doc : JSON) (key : JSString) (v : JSON) : JSON :=
  match doc with
  | .obj fields => .obj (replaceField key v fields)
  | other => other

/-- The body `{ success: false, message }`. -/
def failureBody (message : String) : JSON :=
  mkObject [(utf16 "success", some (.bool false)), (utf16 "message", some (.str (utf16 message)))]

/-- The condition `!email || !isValidEmail(email)`, with its short circuit. -/
def rejectsEmail (email : JSValue) : Except JSError Bool :=
  if !(toBoolean email) then .ok true
  else
    match isValidEmail email with
    | .error e => .error e
    | .ok valid => .ok (!valid)

/-- The callback `entry => entry.email === email`. -/
def sameEmail (email : JSValue) (entry : JSON) : Except JSError Bool :=
  match getProp (some entry) (utf16 "email") with
  | .error e => .error e
  | .ok v => .ok (strictEquals v email)

/-- The record pushed by the newsletter handler. -/
def newsletterRecord (email : JSValue) (now : JSString) : JSON :=
  mkObject [(utf16 "email", email), (utf16 "timestamp", some (.str now)),
    (utf16 "source", some (.str (utf16 "newsletter")))]

/-- The constant `discountCode`. -/
def discountCode : JSString := utf16 "SOURDOUGH10"

/-- The record pushed by the discount handler. -/
def discountRecord (email : JSValue) (now : JSString) : JSON :=
  mkObject [(utf16 "email", email), (utf16 "timestamp", some (.str now)),
    (utf16 "source", some (.str (utf16 "discount_popup"))),
    (utf16 "discountCode", some (.str discountCode))]

/-- Success body of the newsletter handler. -/
def newsletterSuccess : JSON :=
  mkObject [(utf16 "success", some (.bool true)),
    (utf16 "message", some (.str (utf16 "Thank you for subscribing! We\x27ll be in touch soon.")))]

/-- Success body of the discount handler. -/
def discountSuccess : JSON :=
  mkObject [(utf16 "success", some (.bool true)),
    (utf16 "message", some (.str (utf16 "Thanks! Your 10% discount code is: SOURDOUGH10"))),
    (utf16 "discountCode", some (.str discountCode))]

/-- The `try` block of `app.post('/api/newsletter')`; `body` is `req.body`, `now` is
`new Date().toISOString()`, and the result is the response with the state of the
file afterwards. -/
def newsletterTry (diskOk : Bool) (file : FileState) (body : JSValue) (now : JSString) :
    Except JSError (Response × FileState) :=
  match getProp body (utf16 "email") with
  | .error e => .error e
  | .ok email =>
    match rejectsEmail email with
    | .error e => .error e
    | .ok true => .ok (sendJson 400 (failureBody "Please provide a valid email address"), file)
    | .ok false =>
      match readEmails file with
      | .error e => .error e
      | .ok emails =>
        match getProp (some emails) (utf16 "newsletter") with
        | .error e => .error e
        | .ok list =>
          match arrayFind list (sameEmail email) with
          | .error e => .error e
          | .ok found =>
            if toBoolean found then
              .ok (sendJson 400 (failureBody "This email is already subscribed to our newsletter"), file)
            else
              match arrayPush list (newsletterRecord email now) with
              | .error e => .error e
              | .ok list1 =>
                match writeEmails diskOk file (withField emails (utf16 "newsletter") list1) with
                | .error e => .error e
                | .ok file1 => .ok (sendJson 200 newsletterSuccess, file1)

/-- The `try` block of `app.post('/api/discount')`; `body` is `req.body`, `now` is
`new Date().toISOString()`, and the result is the response with the state of the
file afterwards. -/
def discountTry (diskOk : Bool) (file : FileState) (body : JSValue) (now : JSString) :
    Except JSError (Response × FileState) :=
  match getProp body (utf16 "email") with
  | .error e => .error e
  | .ok email =>
    match rejectsEmail email with
    | .error e => .error e
    | .ok true => .ok (sendJson 400 (failureBody "Please provide a valid email address"), file)
    | .ok false =>
      match readEmails file with
      | .error e => .error e
      | .ok emails =>
        match getProp (some emails) (utf16 "discount") with
        | .error e => .error e
        | .ok list =>
          match arrayFind list (sameEmail email) with
          | .error e => .error e
          | .ok found =>
            if toBoolean found then
              .ok (sendJson 400 (failureBody "This email has already been used for the discount"), file)
            else
              match arrayPush list (discountRecord email now) with
              | .error e => .error e
              | .ok list1 =>
                match writeEmails diskOk file (withField emails (utf16 "discount") list1) with
                | .error e => .error e
                | .ok file1 => .ok (sendJson 200 discountSuccess, file1)

/-- The `catch` block of a handler: status 500 with a fixed message; nothing
was written when control arrives there. -/
def orInternalError (message : String) (file : FileState)
    (r : Except JSError (Response × FileState)) : Response × FileState :=
  match r with
  | .ok out => out
  | .error _ => (sendJson 500 (failureBody message), file)

/-- The handler `app.post('/api/newsletter')`. -/
def newsletterHandler (diskOk : Bool) (file : FileState) (body : JSValue) (now : JSString) :
    Response × FileState :=
  orInternalError "Something went wrong. Please try again." file
    (newsletterTry diskOk file body now)

/-- The handler `app.post('/api/discount')`. -/
def discountHandler (diskOk : Bool) (file : FileState) (body : JSValue) (now : JSString) :
    Response × FileState :=
  orInternalError "Something went wrong. Please try again." file
    (discountTry diskOk file body now)

/-- Decimal text of an array length, as Number::toString prints it: the
decimal digits, most significant first, as code units from `0` (48) on. -/
def natText (n : Nat) : JSString :=
  if n = 0 then [48] else ((Nat.digits 10 n).map (fun d => d + 48)).reverse

/-- The property read `v.length`. -/
def getLength (v : JSValue) : Except JSError JSValue :=
  match v with
  | some (.arr items) => .ok (some (.num (natText items.length)))
  | some (.str s) => .ok (some (.num (natText s.length)))
  | other => getProp other (utf16 "length")

/-- The `try` block of `app.get('/api/emails')`. -/
def listAllTry (file : FileState) : Except JSError (Response × FileState) :=
  match readEmails file with
  | .error e => .error e
  | .ok emails =>
    match getProp (some emails) (utf16 "newsletter") with
    | .error e => .error e
    | .ok newsletter =>
      match getLength newsletter with
      | .error e => .error e
      | .ok newsletterCount =>
        match getProp (some emails) (utf16 "discount") with
        | .error e => .error e
        | .ok discount =>
          match getLength discount with
          | .error e => .error e
          | .ok discountCount =>
            .ok (sendJson 200 (mkObject [(utf16 "success", some (.bool true)),
              (utf16 "data", some (mkObject [(utf16 "newsletter_count", newsletterCount),
                (utf16 "discount_count", discountCount),
                (utf16 "newsletter", newsletter),
                (utf16 "discount", discount)]))]), file)

/-- The handler `app.get('/api/emails')`. -/
def listAllHandler (file : FileState) : Response × FileState :=
  orInternalError "Error retrieving emails" file (listAllTry file)

/-- The handler `app.get('/api/health')`. -/
def healthHandler (file : FileState) : Response × FileState :=
  (sendJson 200 (mkObject [(utf16 "success", some (.bool true)),
    (utf16 "message", some (.str (utf16 "Server is running")))]), file)

/-- A request to one of the four routes. -/
inductive Request where
  | newsletter (body : JSValue) (now : JSString)
  | discount (body : JSValue) (now : JSString)
  | listAll
  | health

/-- Serves one request. -/
def handle (diskOk : Bool) (file : FileState) : Request → Response × FileState
  | .newsletter body now => newsletterHandler diskOk file body now
  | .discount body now => discountHandler diskOk file body now
  | .listAll => listAllHandler file
  | .health => healthHandler file

/-- Serves requests one after the other and gives the file at the end. -/
def serveAll (diskOk : Bool) : FileState → List Request → FileState
  | file, [] => file
  | file, r :: rest => serveAll diskOk (handle diskOk file r).2 rest

/-! ## The store as a typed document -/

/-- One stored entry.  The `email` field is the JSON value the request carried:
the handlers store it as it came. -/
structure SignupRecord where
  email : JSON
  timestamp : JSString
  source : JSString
  discountCode : Option JSString

/-- The JSON object of a stored entry. -/
def SignupRecord.toJSON (r : SignupRecord) : JSON :=
  mkObject [(utf16 "email", some r.email), (utf16 "timestamp", some (.str r.timestamp)),
    (utf16 "source", some (.str r.source)),
    (utf16 "discountCode", r.discountCode.map JSON.str)]

/-- The store: the two ordered lists of entries. -/
structure Store where
  newsletter : List SignupRecord
  discount : List SignupRecord

/-- The JSON document of a store. -/
def Store.toJSON (st : Store) : JSON :=
  mkObject [(utf16 "newsletter", some (.arr (st.newsletter.map SignupRecord.toJSON))),
    (utf16 "discount", some (.arr (st.discount.map SignupRecord.toJSON)))]

/-- A stored entry after `JSON.stringify`: the time stamp, the source and the
code are strings and come back as they were. -/
def SignupRecord.saved (r : SignupRecord) : SignupRecord :=
  ⟨jsonStringify r.email, r.timestamp, r.source, r.discountCode⟩

/-- A store after `JSON.stringify`. -/
def Store.saved (st : Store) : Store :=
  ⟨st.newsletter.map SignupRecord.saved, st.discount.map SignupRecord.saved⟩

/-- The backing file that holds a store. -/
def Store.file (st : Store) : FileState :=
  .holds st.toJSON

/-- The entry a successful newsletter signup adds. -/
def newsletterEntry (email : JSON) (now : JSString) : SignupRecord :=
  ⟨email, now, utf16 "newsletter", none⟩

/-- The entry a successful discount signup adds. -/
def discountEntry (email : JSON) (now : JSString) : SignupRecord :=
  ⟨email, now, utf16 "discount_popup", some discountCode⟩

/-- No two entries of a list carry the same email. -/
def UniqueEmails (l : List SignupRecord) : Prop :=
  (l.map SignupRecord.email).Nodup

/-- Per-list uniqueness of emails, the invariant of the data model. -/
def Store.WellFormed (st : Store) : Prop :=
  UniqueEmails st.newsletter ∧ UniqueEmails st.discount

/-- Exactly one entry of the list carries the email. -/
def OccursOnce (email : JSON) (l : List SignupRecord) : Prop :=
  ∃ pre r post, l = pre ++ r :: post ∧ r.email = email ∧
    (∀ x ∈ pre, x.email ≠ email) ∧ ∀ x ∈ post, x.email ≠ email

/-- Whether `find` meets an entry whose email is `===` to the given one. -/
def knownEmail (email : JSValue) (l : List SignupRecord) : Bool :=
  l.any (fun r => strictEquals (some r.email) email)

/-- The request body `{ "email": email }`. -/
def signupBody (email : JSON) : JSValue :=
  some (.obj [(utf16 "email", email)])

/-- A signup request with body `{ "email": email }` received at time `now`. -/
structure Signup where
  forDiscount : Bool
  email : JSON
  now : JSString

/-- The HTTP request of a signup. -/
def Signup.request (s : Signup) : Request :=
  if s.forDiscount then .discount (signupBody s.email) s.now
  else .newsletter (signupBody s.email) s.now

/-- The emails of the signups sent to one of the two lists, in order. -/
def emailsFor (forDiscount : Bool) (sigs : List Signup) : List JSON :=
  (sigs.filter (fun s => s.forDiscount == forDiscount)).map Signup.email

/-- The entries the signups sent to the newsletter list add, in order. -/
def newsletterEntries (sigs : List Signup) : List SignupRecord :=
  (sigs.filter (fun s => !s.forDiscount)).map (fun s => newsletterEntry s.email s.now)

/-- The entries the signups sent to the discount list add, in order. -/
def discountEntries (sigs : List Signup) : List SignupRecord :=
  (sigs.filter (fun s => s.forDiscount)).map (fun s => discountEntry s.email s.now)

/-- Whether a JSON value is an array. -/
def JSON.isArray : JSON → Bool
  | .arr _ => true
  | _ => false

/-- A document that has both a newsletter list and a discount list. -/
def HasBothLists (doc : JSON) : Prop :=
  (∃ items, getProp (some doc) (utf16 "newsletter") = .ok (some (.arr items))) ∧
    ∃ items, getProp (some doc) (utf16 "discount") = .ok (some (.arr items))

/-- The JSON array `["a@b.co"]`, an email field that is not a string. -/
def arrayEmail : JSON :=
  .arr [.str (utf16 "a@b.co")]

/-- The JSON object `{"toString": 1}`, which ToString cannot convert. -/
def unconvertibleEmail : JSON :=
  .obj [(utf16 "toString", .num (utf16 "1"))]

/-- A first time stamp. -/
def stamp1 : JSString := utf16 "2024-05-01T10:00:00.000Z"

/-- A later time stamp. -/
def stamp2 : JSString := utf16 "2024-05-01T10:00:05.000Z"

/-- A third time stamp. -/
def stamp3 : JSString := utf16 "2024-05-01T10:00:09.000Z"

/-- Three signups: `a@b.com` to the newsletter, `c@d.com` to the discount, then
`x@y.com` to the newsletter. -/
def sampleSignups : List Signup :=
  [⟨false, .str (utf16 "a@b.com"), stamp1⟩, ⟨true, .str (utf16 "c@d.com"), stamp2⟩,
   ⟨false, .str (utf16 "x@y.com"), stamp3⟩]

/-- The number a JSON text `1e400` parses to, `Infinity`. -/
def infiniteNumber : JSON :=
  .num (utf16 "Infinity")

/-- The JSON array `[1e400, "@b.co"]`, which ToString turns into
`Infinity,@b.co`. -/
def mixedEmail : JSON :=
  .arr [infiniteNumber, .str (utf16 "@b.co")]

/-- A store whose newsletter list holds one entry with the email `1e400`, as a
file written by hand can. -/
def infiniteNewsletterStore : Store :=
  ⟨[newsletterEntry infiniteNumber stamp1], []⟩

/-- A store whose discount list holds one entry with the email `1e400`. -/
def infiniteDiscountStore : Store :=
  ⟨[], [discountEntry infiniteNumber stamp1]⟩

/-- A store with the entry of `x@y.com` in each list. -/
def oneEntryStore : Store :=
  ⟨[newsletterEntry (.str (utf16 "x@y.com")) stamp1],
    [discountEntry (.str (utf16 "x@y.com")) stamp1]⟩

/-- The document a state of the file stands for: the parsed content when the
file holds JSON text, the empty-list document otherwise. -/
def FileState.document : FileState → JSON
  | .holds doc => doc
  | _ => emptyDoc

/-- The number a decimal numeral denotes. -/
def decimalValue (t : JSString) : Nat :=
  Nat.ofDigits 10 ((t.map (fun c => c - 48)).reverse)

/-! ## The shapes the specification gives for a valid address -/

/-- No code unit of the text is whitespace or an at sign. -/
def NoSpaceNoAt (t : JSString) : Prop :=
  ∀ c ∈ t, isWhiteSpace c = false ∧ c ≠ 64

/-- The shape `local @ d1 . d2` with three non-empty parts free of whitespace
and of at signs. -/
def SplitShape (s : JSString) : Prop :=
  ∃ l d1 d2 : JSString, s = l ++ utf16 "@" ++ d1 ++ utf16 "." ++ d2 ∧
    l ≠ [] ∧ d1 ≠ [] ∧ d2 ≠ [] ∧ NoSpaceNoAt l ∧ NoSpaceNoAt d1 ∧ NoSpaceNoAt d2

/-- The second reading of the specification: exactly one at sign, no
whitespace anywhere, non-empty local and domain parts, and a dot somewhere in
the domain part. -/
def SingleAtShape (s : JSString) : Prop :=
  s.count 64 = 1 ∧ (∀ c ∈ s, isWhiteSpace c = false) ∧
    ∃ l d : JSString, s = l ++ utf16 "@" ++ d ∧ l ≠ [] ∧ d ≠ [] ∧ 46 ∈ d

/-- The second reading with the dot placed: the domain part has a dot with
something before it and something after it. -/
def InnerDotShape (s : JSString) : Prop :=
  s.count 64 = 1 ∧ (∀ c ∈ s, isWhiteSpace c = false) ∧
    ∃ l d1 d2 : JSString, s = l ++ utf16 "@" ++ (d1 ++ utf16 "." ++ d2) ∧
      l ≠ [] ∧ d1 ≠ [] ∧ d2 ≠ []

/-! ## Lemmas on the matcher -/

theorem utf16_at : utf16 "@" = [64] := rfl

theorem utf16_dot : utf16 "." = [46] := rfl

theorem notSpaceAt_test (c : Nat) :
    notSpaceAt.test c = true ↔ (isWhiteSpace c = false ∧ c ≠ 64) := by
  simp [notSpaceAt, Atom.test, ClassItem.test]

theorem plusLoop_iff (a : Atom) (k : List Nat → Bool) (s : List Nat) :
    plusLoop a k s = true ↔
      ∃ p q, s = p ++ q ∧ p ≠ [] ∧ (∀ c ∈ p, a.test c = true) ∧ k q = true := by
  induction s with
  | nil =>
      constructor
      · intro h
        simp [plusLoop] at h
      · rintro ⟨p, q, hs, hp, -, -⟩
        cases p with
        | nil => exact absurd rfl hp
        | cons y p1 => simp at hs
  | cons x xs ih =>
      constructor
      · intro h
        simp only [plusLoop, Bool.and_eq_true, Bool.or_eq_true] at h
        obtain ⟨hx, h | h⟩ := h
        · obtain ⟨p, q, hs, -, hall, hk⟩ := ih.mp h
          refine ⟨x :: p, q, by simp [hs], by simp, ?_, hk⟩
          intro c hc
          rcases List.mem_cons.mp hc with rfl | hc
          · exact hx
          · exact hall c hc
        · exact ⟨[x], xs, by simp, by simp, by simpa using hx, h⟩
      · rintro ⟨p, q, hs, hp, hall, hk⟩
        cases p with
        | nil => exact absurd rfl hp
        | cons y p1 =>
            simp only [List.cons_append, List.cons.injEq] at hs
            obtain ⟨rfl, rfl⟩ := hs
            simp only [plusLoop, Bool.and_eq_true, Bool.or_eq_true]
            refine ⟨hall x (by simp), ?_⟩
            by_cases hp1 : p1 = []
            · right
              simpa [hp1] using hk
            · left
              exact ih.mpr ⟨p1, q, rfl, hp1, fun c hc => hall c (by simp [hc]), hk⟩

theorem searchFrom_assertStart_false (ns : List Node) (s : List Nat) :
    searchFrom (.assertStart :: ns) false s = false := by
  induction s with
  | nil => simp [searchFrom, matchFrom]
  | cons x xs ih => simp [searchFrom, matchFrom, ih]

theorem regexTest_assertStart (ns : List Node) (s : List Nat) :
    regexTest (.assertStart :: ns) s = matchFrom ns true s := by
  cases s with
  | nil => simp [regexTest, searchFrom, matchFrom]
  | cons x xs =>
      simp [regexTest, searchFrom, matchFrom, searchFrom_assertStart_false]

theorem matchFrom_atom_lit (d : Nat) (ns : List Node) (b : Bool) (s : List Nat) :
    matchFrom (.atom (.lit d) :: ns) b s = true ↔
      ∃ xs, s = d :: xs ∧ matchFrom ns false xs = true := by
  cases s with
  | nil => simp [matchFrom]
  | cons x xs =>
      simp only [matchFrom, Atom.test, Bool.and_eq_true, decide_eq_true_eq, List.cons.injEq]
      constructor
      · rintro ⟨rfl, h⟩
        exact ⟨xs, ⟨rfl, rfl⟩, h⟩
      · rintro ⟨ys, ⟨rfl, rfl⟩, h⟩
        exact ⟨rfl, h⟩

theorem matchFrom_plus (a : Atom) (ns : List Node) (b : Bool) (s : List Nat) :
    matchFrom (.plus a :: ns) b s = true ↔
      ∃ p q, s = p ++ q ∧ p ≠ [] ∧ (∀ c ∈ p, a.test c = true) ∧
        matchFrom ns false q = true := by
  simp only [matchFrom]
  exact plusLoop_iff a _ s

theorem matchFrom_assertEnd (b : Bool) (s : List Nat) :
    matchFrom [.assertEnd] b s = true ↔ s = [] := by
  simp [matchFrom]

/-- The pattern of `isValidEmail` accepts exactly the strings of the split shape. -/
theorem regexTest_emailRegex_iff (s : JSString) :
    regexTest emailRegex s = true ↔ SplitShape s := by
  unfold emailRegex SplitShape
  rw [regexTest_assertStart]
  simp only [matchFrom_plus, matchFrom_atom_lit, matchFrom_assertEnd, notSpaceAt_test,
    utf16_at, utf16_dot, NoSpaceNoAt]
  constructor
  · rintro ⟨l, r1, rfl, hl, hlall, r2, rfl, d1, r3, rfl, hd1, hd1all, r4, rfl, d2, r5, rfl,
      hd2, hd2all, rfl⟩
    exact ⟨l, d1, d2, by simp, hl, hd1, hd2, hlall, hd1all, hd2all⟩
  · rintro ⟨l, d1, d2, rfl, hl, hd1, hd2, hlall, hd1all, hd2all⟩
    exact ⟨l, 64 :: (d1 ++ 46 :: d2), by simp, hl, hlall, _, rfl, d1, 46 :: d2, rfl, hd1,
      hd1all, _, rfl, d2, [], by simp, hd2, hd2all, rfl⟩

theorem isValidEmail_str (s : JSString) :
    isValidEmail (some (.str s)) = .ok (regexTest emailRegex s) := rfl

/-! ## Lemmas on the store document -/

theorem newsletterRecord_eq (e : JSON) (now : JSString) :
    newsletterRecord (some e) now = (newsletterEntry e now).toJSON := rfl

theorem discountRecord_eq (e : JSON) (now : JSString) :
    discountRecord (some e) now = (discountEntry e now).toJSON := rfl

theorem emptyDoc_eq : emptyDoc = Store.toJSON ⟨[], []⟩ := rfl

theorem readEmails_store (st : Store) : readEmails st.file = .ok st.toJSON := rfl

theorem getProp_newsletter (st : Store) :
    getProp (some st.toJSON) (utf16 "newsletter") =
      .ok (some (.arr (st.newsletter.map SignupRecord.toJSON))) := rfl

theorem getProp_discount (st : Store) :
    getProp (some st.toJSON) (utf16 "discount") =
      .ok (some (.arr (st.discount.map SignupRecord.toJSON))) := rfl

theorem withField_newsletter (st : Store) (l : List SignupRecord) :
    withField st.toJSON (utf16 "newsletter") (.arr (l.map SignupRecord.toJSON)) =
      Store.toJSON ⟨l, st.discount⟩ := rfl

theorem withField_discount (st : Store) (l : List SignupRecord) :
    withField st.toJSON (utf16 "discount") (.arr (l.map SignupRecord.toJSON)) =
      Store.toJSON ⟨st.newsletter, l⟩ := rfl

theorem sameEmail_entry (email : JSValue) (r : SignupRecord) :
    sameEmail email r.toJSON = .ok (strictEquals (some r.email) email) := rfl

theorem toBoolean_entry (r : SignupRecord) : toBoolean (some r.toJSON) = true := rfl

/-! ## Lemmas on `JSON.stringify` -/

theorem stringifyItems_eq_map (items : List JSON) :
    stringifyItems items = items.map jsonStringify := by
  induction items with
  | nil => rfl
  | cons x rest ih => simp [stringifyItems, ih]

theorem jsonStringify_arr (items : List JSON) :
    jsonStringify (.arr items) = .arr (items.map jsonStringify) := by
  simp [jsonStringify, stringifyItems_eq_map]

theorem jsonStringify_obj (fields : List (JSString × JSON)) :
    jsonStringify (.obj fields) = .obj (stringifyFields fields) := by
  simp [jsonStringify]

theorem jsonStringify_str (t : JSString) : jsonStringify (.str t) = .str t := by
  simp [jsonStringify]

theorem lookup_stringifyFields (key : JSString) (fields : List (JSString × JSON)) :
    lookup key (stringifyFields fields) = (lookup key fields).map jsonStringify := by
  induction fields with
  | nil => rfl
  | cons kv rest ih =>
      obtain ⟨k, v⟩ := kv
      by_cases h : k = key <;> simp [stringifyFields, lookup, h, ih]

theorem lookup_replaceField (key : JSString) (v w : JSON) (fields : List (JSString × JSON))
    (h : lookup key fields = some w) : lookup key (replaceField key v fields) = some v := by
  induction fields with
  | nil => simp [lookup] at h
  | cons kv rest ih =>
      obtain ⟨k, u⟩ := kv
      by_cases hk : k = key
      · simp [replaceField, lookup, hk]
      · simp only [lookup, hk, if_false] at h
        simp [replaceField, lookup, hk, ih h]

mutual
theorem jsonStringify_idem : ∀ v : JSON, jsonStringify (jsonStringify v) = jsonStringify v
  | .null => by simp [jsonStringify]
  | .bool b => by simp [jsonStringify]
  | .num text => by
      by_cases h : isNonFinite text = true <;> simp [jsonStringify, h]
  | .str t => by simp [jsonStringify]
  | .arr items => by simp [jsonStringify, stringifyItems_idem items]
  | .obj fields => by simp [jsonStringify, stringifyFields_idem fields]
theorem stringifyItems_idem :
    ∀ items : List JSON, stringifyItems (stringifyItems items) = stringifyItems items
  | [] => by simp [stringifyItems]
  | x :: rest => by simp [stringifyItems, jsonStringify_idem x, stringifyItems_idem rest]
theorem stringifyFields_idem :
    ∀ fields : List (JSString × JSON),
      stringifyFields (stringifyFields fields) = stringifyFields fields
  | [] => by simp [stringifyFields]
  | (k, v) :: rest => by
      simp [stringifyFields, jsonStringify_idem v, stringifyFields_idem rest]
end

theorem jsonStringify_entry (r : SignupRecord) : jsonStringify r.toJSON = r.saved.toJSON := by
  obtain ⟨e, t, src, code⟩ := r
  cases code <;> rfl

theorem jsonStringify_entries (l : List SignupRecord) :
    (l.map SignupRecord.toJSON).map jsonStringify =
      (l.map SignupRecord.saved).map SignupRecord.toJSON := by
  simp [List.map_map, Function.comp_def, jsonStringify_entry]

theorem jsonStringify_store (st : Store) : jsonStringify st.toJSON = st.saved.toJSON := by
  simp only [Store.toJSON, mkObject, List.filterMap_cons, Option.map_some', List.filterMap_nil,
    jsonStringify_obj, stringifyFields, jsonStringify_arr, jsonStringify_entries, Store.saved]

theorem saved_saved (r : SignupRecord) : r.saved.saved = r.saved := by
  simp [SignupRecord.saved, jsonStringify_idem]

theorem store_saved_saved (st : Store) : st.saved.saved = st.saved := by
  simp [Store.saved, List.map_map, Function.comp_def, saved_saved]

theorem saved_entry_str (t now : JSString) :
    (newsletterEntry (.str t) now).saved = newsletterEntry (.str t) now ∧
      (discountEntry (.str t) now).saved = discountEntry (.str t) now :=
  ⟨rfl, rfl⟩

theorem sendJson_failureBody (status : Nat) (message : String) :
    sendJson status (failureBody message) = ⟨status, failureBody message⟩ := rfl

theorem sendJson_newsletterSuccess : sendJson 200 newsletterSuccess = ⟨200, newsletterSuccess⟩ :=
  rfl

theorem sendJson_discountSuccess : sendJson 200 discountSuccess = ⟨200, discountSuccess⟩ := rfl

theorem findLoop_entries (email : JSValue) (l : List SignupRecord) :
    findLoop (sameEmail email) (l.map SignupRecord.toJSON) =
      .ok ((l.find? (fun r => strictEquals (some r.email) email)).map SignupRecord.toJSON) := by
  induction l with
  | nil => rfl
  | cons r rest ih =>
      simp only [List.map_cons, findLoop, sameEmail_entry, List.find?_cons]
      cases h : strictEquals (some r.email) email with
      | true => simp
      | false => simpa using ih

theorem arrayFind_entries (email : JSValue) (l : List SignupRecord) :
    ∃ found, arrayFind (some (.arr (l.map SignupRecord.toJSON))) (sameEmail email) = .ok found ∧
      toBoolean found = knownEmail email l := by
  refine ⟨_, findLoop_entries email l, ?_⟩
  unfold knownEmail
  cases h : l.find? (fun r => strictEquals (some r.email) email) with
  | none =>
      have hall := List.find?_eq_none.mp h
      have : (l.any fun r => strictEquals (some r.email) email) = false := by
        rw [List.any_eq_false]
        intro x hx
        simpa using hall x hx
      simp [this, toBoolean]
  | some r =>
      have hr := List.find?_some h
      have hmem := List.mem_of_find?_eq_some h
      have : (l.any fun r => strictEquals (some r.email) email) = true :=
        List.any_eq_true.mpr ⟨r, hmem, hr⟩
      simp [this, toBoolean_entry]

theorem strictEquals_eq {a b : JSValue} (h : strictEquals a b = true) : a = b := by
  unfold strictEquals at h
  split at h <;> simp_all

theorem knownEmail_false_of_absent (e : JSON) (l : List SignupRecord)
    (h : ∀ r ∈ l, r.email ≠ e) : knownEmail (some e) l = false := by
  unfold knownEmail
  rw [List.any_eq_false]
  intro r hr hse
  exact h r hr (Option.some.inj (strictEquals_eq hse))

theorem ok_true_ne_ok_false : (Except.ok true : Except JSError Bool) ≠ .ok false := by
  intro h
  cases h

theorem isValidEmail_truthy {v : JSValue} (h : isValidEmail v = .ok true) :
    toBoolean v = true := by
  match v with
  | none => exact absurd (h.symm.trans (rfl : isValidEmail none = .ok false)) ok_true_ne_ok_false
  | some .null =>
      exact absurd (h.symm.trans (rfl : isValidEmail (some .null) = .ok false)) ok_true_ne_ok_false
  | some (.bool true) => rfl
  | some (.bool false) =>
      exact absurd (h.symm.trans (rfl : isValidEmail (some (.bool false)) = .ok false)) ok_true_ne_ok_false
  | some (.num text) =>
      by_cases h0 : text = utf16 "0"
      · subst h0
        exact absurd (h.symm.trans (rfl : isValidEmail (some (.num (utf16 "0"))) = .ok false))
          ok_true_ne_ok_false
      · by_cases h1 : text = utf16 "NaN"
        · subst h1
          exact absurd
            (h.symm.trans (rfl : isValidEmail (some (.num (utf16 "NaN"))) = .ok false))
            ok_true_ne_ok_false
        · simp [toBoolean, h0, h1]
  | some (.str []) =>
      exact absurd (h.symm.trans (rfl : isValidEmail (some (.str [])) = .ok false)) ok_true_ne_ok_false
  | some (.str (c :: cs)) => rfl
  | some (.arr _) => rfl
  | some (.obj _) => rfl

theorem rejectsEmail_of_valid {v : JSValue} (h : isValidEmail v = .ok true) :
    rejectsEmail v = .ok false := by
  simp [rejectsEmail, isValidEmail_truthy h, h]

theorem rejectsEmail_true_iff (v : JSValue) :
    rejectsEmail v = .ok true ↔ (toBoolean v = false ∨ isValidEmail v = .ok false) := by
  unfold rejectsEmail
  cases hb : toBoolean v with
  | false => simp
  | true =>
      cases hv : isValidEmail v with
      | error e => simp
      | ok b => cases b <;> simp

theorem rejectsEmail_false_iff (v : JSValue) :
    rejectsEmail v = .ok false ↔ isValidEmail v = .ok true := by
  constructor
  · intro h
    unfold rejectsEmail at h
    cases hb : toBoolean v with
    | false => simp [hb] at h
    | true =>
        cases hv : isValidEmail v with
        | error e => simp [hb, hv] at h
        | ok b => cases b <;> simp_all
  · exact rejectsEmail_of_valid

/-! ## What the signup handlers do on a store -/

theorem newsletterHandler_rejected (diskOk : Bool) (file : FileState) (body email : JSValue)
    (now : JSString) (hbody : getProp body (utf16 "email") = .ok email)
    (hrej : rejectsEmail email = .ok true) :
    newsletterHandler diskOk file body now =
      (⟨400, failureBody "Please provide a valid email address"⟩, file) := by
  simp only [newsletterHandler, newsletterTry, hbody, hrej, orInternalError, sendJson_failureBody]

theorem discountHandler_rejected (diskOk : Bool) (file : FileState) (body email : JSValue)
    (now : JSString) (hbody : getProp body (utf16 "email") = .ok email)
    (hrej : rejectsEmail email = .ok true) :
    discountHandler diskOk file body now =
      (⟨400, failureBody "Please provide a valid email address"⟩, file) := by
  simp only [discountHandler, discountTry, hbody, hrej, orInternalError, sendJson_failureBody]

theorem newsletterHandler_valid (diskOk : Bool) (st : Store) (body : JSValue) (now : JSString)
    (e : JSON) (hbody : getProp body (utf16 "email") = .ok (some e))
    (hv : isValidEmail (some e) = .ok true) :
    newsletterHandler diskOk st.file body now =
      if knownEmail (some e) st.newsletter then
        (⟨400, failureBody "This email is already subscribed to our newsletter"⟩, st.file)
      else
        (⟨200, newsletterSuccess⟩,
          if diskOk then
            Store.file (Store.saved ⟨st.newsletter ++ [newsletterEntry e now], st.discount⟩)
          else st.file) := by
  obtain ⟨found, hfind, hfound⟩ := arrayFind_entries (some e) st.newsletter
  simp only [newsletterHandler, newsletterTry, hbody, rejectsEmail_of_valid hv, readEmails_store,
    getProp_newsletter, hfind, hfound, sendJson_failureBody, sendJson_newsletterSuccess]
  cases hk : knownEmail (some e) st.newsletter with
  | true => simp [orInternalError]
  | false =>
      have hpush : arrayPush (some (.arr (st.newsletter.map SignupRecord.toJSON)))
          (newsletterRecord (some e) now) =
            .ok (.arr ((st.newsletter ++ [newsletterEntry e now]).map SignupRecord.toJSON)) := by
        simp [arrayPush, newsletterRecord_eq]
      simp only [hpush, withField_newsletter]
      cases diskOk <;>
        simp [writeEmails, writeFile, tryCatch, orInternalError, Store.file, jsonStringify_store]

theorem discountHandler_valid (diskOk : Bool) (st : Store) (body : JSValue) (now : JSString)
    (e : JSON) (hbody : getProp body (utf16 "email") = .ok (some e))
    (hv : isValidEmail (some e) = .ok true) :
    discountHandler diskOk st.file body now =
      if knownEmail (some e) st.discount then
        (⟨400, failureBody "This email has already been used for the discount"⟩, st.file)
      else
        (⟨200, discountSuccess⟩,
          if diskOk then
            Store.file (Store.saved ⟨st.newsletter, st.discount ++ [discountEntry e now]⟩)
          else st.file) := by
  obtain ⟨found, hfind, hfound⟩ := arrayFind_entries (some e) st.discount
  simp only [discountHandler, discountTry, hbody, rejectsEmail_of_valid hv, readEmails_store,
    getProp_discount, hfind, hfound, sendJson_failureBody, sendJson_discountSuccess]
  cases hk : knownEmail (some e) st.discount with
  | true => simp [orInternalError]
  | false =>
      have hpush : arrayPush (some (.arr (st.discount.map SignupRecord.toJSON)))
          (discountRecord (some e) now) =
            .ok (.arr ((st.discount ++ [discountEntry e now]).map SignupRecord.toJSON)) := by
        simp [arrayPush, discountRecord_eq]
      simp only [hpush, withField_discount]
      cases diskOk <;>
        simp [writeEmails, writeFile, tryCatch, orInternalError, Store.file, jsonStringify_store]

/-! ## Validation -/

/-- C1: for every string `s`, `isValidEmail(s)` is true exactly when `s` splits
as `local ++ "@" ++ d1 ++ "." ++ d2` with `local`, `d1`, `d2` non-empty and free
of whitespace and of `@`; `"a@b.co"` is accepted and `"bad"`, `"a@b"`,
`"a b@c.co"` are rejected. -/
theorem isValidEmail_iff_splitShape :
    (∀ s : JSString, isValidEmail (some (.str s)) = .ok true ↔ SplitShape s) ∧
    isValidEmail (some (.str (utf16 "a@b.co"))) = .ok true ∧
    isValidEmail (some (.str (utf16 "bad"))) = .ok false ∧
    isValidEmail (some (.str (utf16 "a@b"))) = .ok false ∧
    isValidEmail (some (.str (utf16 "a b@c.co"))) = .ok false := by
  refine ⟨fun s => ?_, rfl, rfl, rfl, rfl⟩
  rw [isValidEmail_str, ← regexTest_emailRegex_iff]
  constructor
  · intro h
    injection h
  · intro h
    rw [h]

theorem splitShape_iff_innerDotShape (s : JSString) : SplitShape s ↔ InnerDotShape s := by
  unfold SplitShape InnerDotShape NoSpaceNoAt
  simp only [utf16_at, utf16_dot]
  constructor
  · rintro ⟨l, d1, d2, rfl, hl, hd1, hd2, hlall, hd1all, hd2all⟩
    have cl : l.count 64 = 0 := List.count_eq_zero.mpr (fun h => (hlall 64 h).2 rfl)
    have c1 : d1.count 64 = 0 := List.count_eq_zero.mpr (fun h => (hd1all 64 h).2 rfl)
    have c2 : d2.count 64 = 0 := List.count_eq_zero.mpr (fun h => (hd2all 64 h).2 rfl)
    refine ⟨?_, ?_, l, d1, d2, by simp, hl, hd1, hd2⟩
    · simp [List.count_append, cl, c1, c2]
    · intro c hc
      simp only [List.mem_append, List.mem_singleton] at hc
      rcases hc with (((hc | hc) | hc) | hc) | hc
      · exact (hlall c hc).1
      · subst hc
        decide
      · exact (hd1all c hc).1
      · subst hc
        decide
      · exact (hd2all c hc).1
  · rintro ⟨hcount, hws, l, d1, d2, rfl, hl, hd1, hd2⟩
    simp only [List.count_append, List.count_singleton, List.count_cons, List.count_nil] at hcount
    have cl : l.count 64 = 0 := by
      simp at hcount
      omega
    have c1 : d1.count 64 = 0 := by
      simp at hcount
      omega
    have c2 : d2.count 64 = 0 := by
      simp at hcount
      omega
    refine ⟨l, d1, d2, by simp, hl, hd1, hd2, ?_, ?_, ?_⟩
    · intro c hc
      refine ⟨hws c (by simp [hc]), ?_⟩
      rintro rfl
      exact List.count_eq_zero.mp cl hc
    · intro c hc
      refine ⟨hws c (by simp [hc]), ?_⟩
      rintro rfl
      exact List.count_eq_zero.mp c1 hc
    · intro c hc
      refine ⟨hws c (by simp [hc]), ?_⟩
      rintro rfl
      exact List.count_eq_zero.mp c2 hc

/-- C2, as stated, fails at `"a@.b"`: one `@`, no whitespace, non-empty local
and domain parts and a dot in the domain part, yet `isValidEmail` is false. -/
theorem singleAtShape_not_valid :
    ¬ (isValidEmail (some (.str (utf16 "a@.b"))) = .ok true ↔ SingleAtShape (utf16 "a@.b")) := by
  intro h
  have hshape : SingleAtShape (utf16 "a@.b") :=
    ⟨by decide, by decide, [97], [46, 98], rfl, by simp, by simp, by simp⟩
  exact ok_true_ne_ok_false
    ((h.mpr hshape).symm.trans (rfl : isValidEmail (some (.str (utf16 "a@.b"))) = .ok false))

/-- C2, amended: for every string `s`, `isValidEmail(s)` is true exactly when
`s` has exactly one `@`, no whitespace anywhere, a non-empty local part, and a
domain part with a dot that has at least one character before it and at least
one after it. -/
theorem isValidEmail_iff_innerDotShape (s : JSString) :
    isValidEmail (some (.str s)) = .ok true ↔ InnerDotShape s := by
  rw [← splitShape_iff_innerDotShape, isValidEmail_str, ← regexTest_emailRegex_iff]
  constructor
  · intro h
    injection h
  · intro h
    rw [h]

/-! ## The error paths of the signup handlers -/

/-- An email that is absent or for which `isValidEmail` returns false gets the
400 validation response from both handlers, whatever the file holds, and the
file stays as it was. -/
theorem signup_invalid_rejected (diskOk : Bool) (file : FileState) (body email : JSValue)
    (now : JSString) (hbody : getProp body (utf16 "email") = .ok email)
    (hbad : email = none ∨ isValidEmail email = .ok false) :
    newsletterHandler diskOk file body now =
        (⟨400, .obj [(utf16 "success", .bool false),
          (utf16 "message", .str (utf16 "Please provide a valid email address"))]⟩, file) ∧
      discountHandler diskOk file body now =
        (⟨400, .obj [(utf16 "success", .bool false),
          (utf16 "message", .str (utf16 "Please provide a valid email address"))]⟩, file) := by
  have hrej : rejectsEmail email = .ok true := by
    rw [rejectsEmail_true_iff]
    rcases hbad with rfl | h
    · left
      rfl
    · right
      exact h
  exact ⟨newsletterHandler_rejected diskOk file body email now hbody hrej,
    discountHandler_rejected diskOk file body email now hbody hrej⟩

/-- A valid email that `find` meets in the target list (an entry whose email is
`===` to it) gets the 400 duplicate response, and the file stays as it was. -/
theorem signup_duplicate_rejected (diskOk : Bool) (st : Store) (body : JSValue)
    (now : JSString) (e : JSON) (hbody : getProp body (utf16 "email") = .ok (some e))
    (hvalid : isValidEmail (some e) = .ok true) :
    (knownEmail (some e) st.newsletter = true →
      newsletterHandler diskOk st.file body now =
        (⟨400, .obj [(utf16 "success", .bool false),
          (utf16 "message", .str (utf16 "This email is already subscribed to our newsletter"))]⟩,
          st.file)) ∧
    (knownEmail (some e) st.discount = true →
      discountHandler diskOk st.file body now =
        (⟨400, .obj [(utf16 "success", .bool false),
          (utf16 "message", .str (utf16 "This email has already been used for the discount"))]⟩,
          st.file)) := by
  constructor
  · intro hk
    rw [newsletterHandler_valid diskOk st body now e hbody hvalid, if_pos hk]
    rfl
  · intro hk
    rw [discountHandler_valid diskOk st body now e hbody hvalid, if_pos hk]
    rfl

/-- A string email is met by `find` exactly when an entry of the list carries it. -/
theorem knownEmail_str (s : JSString) (l : List SignupRecord) :
    knownEmail (some (.str s)) l = true ↔ ∃ r ∈ l, r.email = .str s := by
  unfold knownEmail
  rw [List.any_eq_true]
  constructor
  · rintro ⟨r, hr, h⟩
    exact ⟨r, hr, Option.some.inj (strictEquals_eq h)⟩
  · rintro ⟨r, hr, h⟩
    refine ⟨r, hr, ?_⟩
    rw [h]
    simp [strictEquals]

/-- C3 at the failing input: the list already holds an entry whose email is the
array `["a@b.co"]`, the request carries the same email, `isValidEmail` returns
true for it, and yet both handlers answer 200 and write a second entry. -/
theorem duplicate_array_email_accepted :
    isValidEmail (some arrayEmail) = .ok true ∧
    (∃ r ∈ [newsletterEntry arrayEmail stamp1], r.email = arrayEmail) ∧
    newsletterHandler true (Store.file ⟨[newsletterEntry arrayEmail stamp1], []⟩)
        (signupBody arrayEmail) stamp2 =
      (⟨200, newsletterSuccess⟩,
        Store.file ⟨[newsletterEntry arrayEmail stamp1, newsletterEntry arrayEmail stamp2], []⟩) ∧
    (∃ r ∈ [discountEntry arrayEmail stamp1], r.email = arrayEmail) ∧
    discountHandler true (Store.file ⟨[], [discountEntry arrayEmail stamp1]⟩)
        (signupBody arrayEmail) stamp2 =
      (⟨200, discountSuccess⟩,
        Store.file ⟨[], [discountEntry arrayEmail stamp1, discountEntry arrayEmail stamp2]⟩) :=
  ⟨rfl, ⟨_, List.mem_singleton.mpr rfl, rfl⟩, rfl, ⟨_, List.mem_singleton.mpr rfl, rfl⟩, rfl⟩

/-! ## Uniqueness of emails -/

/-- C4 at the failing input: from the empty store, the request
`{"email": ["a@b.co"]}` sent twice in a row to the newsletter handler succeeds
twice; the store is well formed after the first and holds two entries with the
same email after the second. -/
theorem array_email_signed_up_twice :
    handle true (.holds emptyDoc) (.newsletter (signupBody arrayEmail) stamp1) =
      (⟨200, newsletterSuccess⟩, Store.file ⟨[newsletterEntry arrayEmail stamp1], []⟩) ∧
    Store.WellFormed ⟨[newsletterEntry arrayEmail stamp1], []⟩ ∧
    handle true (Store.file ⟨[newsletterEntry arrayEmail stamp1], []⟩)
        (.newsletter (signupBody arrayEmail) stamp2) =
      (⟨200, newsletterSuccess⟩,
        Store.file ⟨[newsletterEntry arrayEmail stamp1, newsletterEntry arrayEmail stamp2], []⟩) ∧
    ¬ Store.WellFormed
      ⟨[newsletterEntry arrayEmail stamp1, newsletterEntry arrayEmail stamp2], []⟩ := by
  refine ⟨rfl, ?_, rfl, ?_⟩
  · simp [Store.WellFormed, UniqueEmails]
  · simp [Store.WellFormed, UniqueEmails, newsletterEntry]

theorem natText_lt (n c : Nat) (h : c ∈ natText n) : c < 58 := by
  unfold natText at h
  by_cases h0 : n = 0
  · simp [h0] at h
    omega
  · simp only [h0, if_false, List.mem_reverse, List.mem_map] at h
    obtain ⟨d, hd, rfl⟩ := h
    have := Nat.digits_lt_base (by norm_num : 1 < 10) hd
    omega

theorem isNonFinite_natText (n : Nat) : isNonFinite (natText n) = false := by
  unfold isNonFinite
  have h1 : natText n ≠ utf16 "Infinity" := by
    intro h
    have := natText_lt n 73 (by rw [h]; decide)
    omega
  have h2 : natText n ≠ utf16 "-Infinity" := by
    intro h
    have := natText_lt n 73 (by rw [h]; decide)
    omega
  have h3 : natText n ≠ utf16 "NaN" := by
    intro h
    have := natText_lt n 78 (by rw [h]; decide)
    omega
  simp [h1, h2, h3]

theorem decimalValue_natText (n : Nat) : decimalValue (natText n) = n := by
  unfold decimalValue natText
  by_cases h : n = 0
  · subst h
    simp [Nat.ofDigits]
  · simp only [h, if_false, List.map_reverse, List.reverse_reverse, List.map_map]
    have hid : ((fun c => c - 48) ∘ fun d => d + 48) = id := by
      funext x
      simp
    rw [hid, List.map_id, Nat.ofDigits_digits]

theorem listAllHandler_store (st : Store) :
    listAllHandler st.file =
      (⟨200, .obj [(utf16 "success", .bool true),
        (utf16 "data", .obj [(utf16 "newsletter_count", .num (natText st.newsletter.length)),
          (utf16 "discount_count", .num (natText st.discount.length)),
          (utf16 "newsletter",
            .arr ((st.newsletter.map SignupRecord.saved).map SignupRecord.toJSON)),
          (utf16 "discount",
            .arr ((st.discount.map SignupRecord.saved).map SignupRecord.toJSON))])]⟩,
        st.file) := by
  simp only [listAllHandler, listAllTry, readEmails_store, getProp_newsletter, getProp_discount,
    getLength, List.length_map, orInternalError, sendJson, mkObject, List.filterMap_cons,
    Option.map_some', List.filterMap_nil, jsonStringify_obj, stringifyFields, jsonStringify_arr,
    jsonStringify, isNonFinite_natText, stringifyItems_eq_map, jsonStringify_entries]
  simp

theorem isValidEmail_obj_false (fields : List (JSString × JSON)) :
    isValidEmail (some (.obj fields)) ≠ .ok true := by
  intro h
  unfold isValidEmail toStringJS jsonToString at h
  cases hl : lookup (utf16 "toString") fields with
  | some v => simp [hl] at h
  | none =>
      simp only [hl] at h
      have hfalse : regexTest emailRegex (utf16 "[object Object]") = false := rfl
      rw [hfalse] at h
      exact ok_true_ne_ok_false h.symm

theorem isValidEmail_null_false : isValidEmail (some .null) ≠ .ok true := by
  intro h
  have hfalse : isValidEmail (some .null) = .ok false := rfl
  exact ok_true_ne_ok_false (h.symm.trans hfalse)

theorem isNonFinite_of_valid (t : JSString) (hvalid : isValidEmail (some (.num t)) = .ok true) :
    isNonFinite t = false := by
  cases hnf : isNonFinite t with
  | false => rfl
  | true =>
      exfalso
      simp only [isNonFinite, Bool.or_eq_true, decide_eq_true_eq] at hnf
      rcases hnf with (h | h) | h <;> subst h
      · have hfalse : isValidEmail (some (.num (utf16 "Infinity"))) = .ok false := rfl
        exact ok_true_ne_ok_false (hvalid.symm.trans hfalse)
      · have hfalse : isValidEmail (some (.num (utf16 "-Infinity"))) = .ok false := rfl
        exact ok_true_ne_ok_false (hvalid.symm.trans hfalse)
      · have hfalse : isValidEmail (some (.num (utf16 "NaN"))) = .ok false := rfl
        exact ok_true_ne_ok_false (hvalid.symm.trans hfalse)

theorem strictEquals_self_of_valid (e : JSON) (hna : e.isArray = false)
    (hvalid : isValidEmail (some e) = .ok true) : strictEquals (some e) (some e) = true := by
  cases e with
  | null => rfl
  | bool b => simp [strictEquals]
  | num t => simp [strictEquals]
  | str t => simp [strictEquals]
  | arr items => simp [JSON.isArray] at hna
  | obj fields => exact absurd hvalid (isValidEmail_obj_false fields)

theorem jsonStringify_of_valid (e : JSON) (hna : e.isArray = false)
    (hvalid : isValidEmail (some e) = .ok true) : jsonStringify e = e := by
  cases e with
  | null => rfl
  | bool b => simp [jsonStringify]
  | num t => simp [jsonStringify, isNonFinite_of_valid t hvalid]
  | str t => simp [jsonStringify]
  | arr items => simp [JSON.isArray] at hna
  | obj fields => exact absurd hvalid (isValidEmail_obj_false fields)

/-- An entry saved earlier is `===` to a valid email only when it carried that
very email. -/
theorem eq_of_strictEquals_saved (a b : JSON) (hvalid : isValidEmail (some b) = .ok true)
    (h : strictEquals (some (jsonStringify a)) (some b) = true) : a = b := by
  have hab : jsonStringify a = b := Option.some.inj (strictEquals_eq h)
  cases a with
  | null =>
      subst hab
      exact absurd hvalid isValidEmail_null_false
  | bool x => simpa [jsonStringify] using hab
  | num t =>
      by_cases hnf : isNonFinite t = true
      · simp only [jsonStringify, hnf, if_true] at hab
        subst hab
        exact absurd hvalid isValidEmail_null_false
      · simpa [jsonStringify, hnf] using hab
  | str t => simpa [jsonStringify] using hab
  | arr items =>
      rw [jsonStringify_arr] at h
      simp [strictEquals] at h
  | obj fields =>
      rw [jsonStringify_obj] at h
      simp [strictEquals] at h

theorem knownEmail_saved_false (e : JSON) (l : List SignupRecord)
    (hvalid : isValidEmail (some e) = .ok true) (h : ∀ r ∈ l, r.email ≠ e) :
    knownEmail (some e) (l.map SignupRecord.saved) = false := by
  unfold knownEmail
  rw [List.any_eq_false]
  intro r hr hse
  obtain ⟨r0, hr0, rfl⟩ := List.mem_map.mp hr
  exact h r0 hr0 (eq_of_strictEquals_saved r0.email e hvalid hse)

theorem absent_of_knownEmail_false (e : JSON) (l : List SignupRecord) (hna : e.isArray = false)
    (hvalid : isValidEmail (some e) = .ok true) (hk : knownEmail (some e) l = false) :
    e ∉ l.map SignupRecord.email := by
  intro hmem
  obtain ⟨r, hr, hre⟩ := List.mem_map.mp hmem
  unfold knownEmail at hk
  rw [List.any_eq_false] at hk
  apply hk r hr
  rw [hre]
  exact strictEquals_self_of_valid e hna hvalid

theorem uniqueEmails_append (l : List SignupRecord) (r : SignupRecord)
    (hl : UniqueEmails l) (hr : r.email ∉ l.map SignupRecord.email) :
    UniqueEmails (l ++ [r]) := by
  unfold UniqueEmails at hl ⊢
  rw [List.map_append, List.nodup_append]
  refine ⟨hl, List.nodup_singleton _, ?_⟩
  intro a ha hb
  simp only [List.map_cons, List.map_nil, List.mem_singleton] at hb
  subst hb
  exact hr ha

theorem saved_newsletter_append (st : Store) (r : SignupRecord) (hst : st.saved = st)
    (hr : r.saved = r) :
    Store.saved ⟨st.newsletter ++ [r], st.discount⟩ = ⟨st.newsletter ++ [r], st.discount⟩ := by
  obtain ⟨n, d⟩ := st
  simp only [Store.saved, Store.mk.injEq] at hst
  simp [Store.saved, hst.1, hst.2, hr]

theorem saved_discount_append (st : Store) (r : SignupRecord) (hst : st.saved = st)
    (hr : r.saved = r) :
    Store.saved ⟨st.newsletter, st.discount ++ [r]⟩ = ⟨st.newsletter, st.discount ++ [r]⟩ := by
  obtain ⟨n, d⟩ := st
  simp only [Store.saved, Store.mk.injEq] at hst
  simp [Store.saved, hst.1, hst.2, hr]

theorem newsletterHandler_file_cases (diskOk : Bool) (st : Store) (body : JSValue)
    (now : JSString) :
    (newsletterHandler diskOk st.file body now).2 = st.file ∨
      ∃ e, getProp body (utf16 "email") = .ok (some e) ∧ isValidEmail (some e) = .ok true ∧
        knownEmail (some e) st.newsletter = false ∧
        (newsletterHandler diskOk st.file body now).2 =
          Store.file (Store.saved ⟨st.newsletter ++ [newsletterEntry e now], st.discount⟩) := by
  cases hbody : getProp body (utf16 "email") with
  | error err =>
      left
      simp only [newsletterHandler, newsletterTry, hbody, orInternalError]
  | ok email =>
    cases hrej : rejectsEmail email with
    | error err =>
        left
        simp only [newsletterHandler, newsletterTry, hbody, hrej, orInternalError]
    | ok rej =>
      cases rej with
      | true =>
          left
          rw [newsletterHandler_rejected diskOk _ body email now hbody hrej]
      | false =>
        have hvalid := (rejectsEmail_false_iff email).mp hrej
        cases email with
        | none =>
          have hfalse : isValidEmail none = .ok false := rfl
          exact (ok_true_ne_ok_false (hvalid.symm.trans hfalse)).elim
        | some e =>
          rw [newsletterHandler_valid diskOk st body now e hbody hvalid]
          cases hk : knownEmail (some e) st.newsletter with
          | true =>
              left
              simp
          | false =>
              cases diskOk with
              | true =>
                  right
                  exact ⟨e, rfl, hvalid, hk, by simp [hk]⟩
              | false =>
                  left
                  simp

theorem discountHandler_file_cases (diskOk : Bool) (st : Store) (body : JSValue)
    (now : JSString) :
    (discountHandler diskOk st.file body now).2 = st.file ∨
      ∃ e, getProp body (utf16 "email") = .ok (some e) ∧ isValidEmail (some e) = .ok true ∧
        knownEmail (some e) st.discount = false ∧
        (discountHandler diskOk st.file body now).2 =
          Store.file (Store.saved ⟨st.newsletter, st.discount ++ [discountEntry e now]⟩) := by
  cases hbody : getProp body (utf16 "email") with
  | error err =>
      left
      simp only [discountHandler, discountTry, hbody, orInternalError]
  | ok email =>
    cases hrej : rejectsEmail email with
    | error err =>
        left
        simp only [discountHandler, discountTry, hbody, hrej, orInternalError]
    | ok rej =>
      cases rej with
      | true =>
          left
          rw [discountHandler_rejected diskOk _ body email now hbody hrej]
      | false =>
        have hvalid := (rejectsEmail_false_iff email).mp hrej
        cases email with
        | none =>
          have hfalse : isValidEmail none = .ok false := rfl
          exact (ok_true_ne_ok_false (hvalid.symm.trans hfalse)).elim
        | some e =>
          rw [discountHandler_valid diskOk st body now e hbody hvalid]
          cases hk : knownEmail (some e) st.discount with
          | true =>
              left
              simp
          | false =>
              cases diskOk with
              | true =>
                  right
                  exact ⟨e, rfl, hvalid, hk, by simp [hk]⟩
              | false =>
                  left
                  simp

/-- Uniqueness of emails is kept, on a store that holds no non-finite number,
by every request whose email field is not a JSON array: the signup handlers
append only an email that no entry carries, and the list-all and health
handlers write nothing. -/
theorem wellFormed_preserved_unless_array (diskOk : Bool) (st : Store) (r : Request)
    (hwf : st.WellFormed) (hst : st.saved = st)
    (hna : ∀ body now items, (r = .newsletter body now ∨ r = .discount body now) →
      getProp body (utf16 "email") ≠ .ok (some (.arr items))) :
    ∃ st1 : Store, (handle diskOk st.file r).2 = st1.file ∧ st1.WellFormed ∧
      st1.saved = st1 := by
  cases r with
  | newsletter body now =>
      rcases newsletterHandler_file_cases diskOk st body now with h | ⟨e, hbody, hvalid, hk, h⟩
      · exact ⟨st, h, hwf, hst⟩
      · have hnotarr : e.isArray = false := by
          cases e with
          | arr items => exact absurd hbody (hna body now items (Or.inl rfl))
          | _ => rfl
        have hr : (newsletterEntry e now).saved = newsletterEntry e now := by
          simp [SignupRecord.saved, newsletterEntry, jsonStringify_of_valid e hnotarr hvalid]
        have hsaved := saved_newsletter_append st (newsletterEntry e now) hst hr
        refine ⟨⟨st.newsletter ++ [newsletterEntry e now], st.discount⟩, ?_, ⟨?_, hwf.2⟩, hsaved⟩
        · show (newsletterHandler diskOk st.file body now).2 = _
          rw [h, hsaved]
        · exact uniqueEmails_append _ _ hwf.1
            (absent_of_knownEmail_false e st.newsletter hnotarr hvalid hk)
  | discount body now =>
      rcases discountHandler_file_cases diskOk st body now with h | ⟨e, hbody, hvalid, hk, h⟩
      · exact ⟨st, h, hwf, hst⟩
      · have hnotarr : e.isArray = false := by
          cases e with
          | arr items => exact absurd hbody (hna body now items (Or.inr rfl))
          | _ => rfl
        have hr : (discountEntry e now).saved = discountEntry e now := by
          simp [SignupRecord.saved, discountEntry, jsonStringify_of_valid e hnotarr hvalid]
        have hsaved := saved_discount_append st (discountEntry e now) hst hr
        refine ⟨⟨st.newsletter, st.discount ++ [discountEntry e now]⟩, ?_, ⟨hwf.1, ?_⟩, hsaved⟩
        · show (discountHandler diskOk st.file body now).2 = _
          rw [h, hsaved]
        · exact uniqueEmails_append _ _ hwf.2
            (absent_of_knownEmail_false e st.discount hnotarr hvalid hk)
  | listAll =>
      refine ⟨st, ?_, hwf, hst⟩
      show (listAllHandler st.file).2 = st.file
      rw [listAllHandler_store]
  | health => exact ⟨st, rfl, hwf, hst⟩

/-- An email that ToString cannot convert makes `isValidEmail` throw, and the
handler answers 500 without writing. -/
theorem signup_unconvertible_email :
    newsletterHandler true (.holds emptyDoc) (signupBody unconvertibleEmail) stamp1 =
      (⟨500, .obj [(utf16 "success", .bool false),
        (utf16 "message", .str (utf16 "Something went wrong. Please try again."))]⟩,
        .holds emptyDoc) := rfl

/-! ## Successful signups -/

/-- C5, as stated, fails at two inputs.  On a well-formed store whose one
newsletter entry carries the email `1e400`, the valid new email `a@b.com` is
appended but the stored entry comes back with the email `null`; on the empty
store, the valid email `[1e400, "@b.co"]` is answered with success and the
entry written carries `[null, "@b.co"]`. -/
theorem newsletter_signup_rewrites_store :
    (infiniteNewsletterStore.WellFormed ∧
      isValidEmail (some (.str (utf16 "a@b.com"))) = .ok true ∧
      (∀ r ∈ infiniteNewsletterStore.newsletter, r.email ≠ .str (utf16 "a@b.com")) ∧
      (newsletterHandler true infiniteNewsletterStore.file
          (signupBody (.str (utf16 "a@b.com"))) stamp2).2 =
        Store.file ⟨[newsletterEntry .null stamp1,
          newsletterEntry (.str (utf16 "a@b.com")) stamp2], []⟩ ∧
      (newsletterHandler true infiniteNewsletterStore.file
          (signupBody (.str (utf16 "a@b.com"))) stamp2).2 ≠
        Store.file ⟨infiniteNewsletterStore.newsletter ++
          [newsletterEntry (.str (utf16 "a@b.com")) stamp2], infiniteNewsletterStore.discount⟩) ∧
    (isValidEmail (some mixedEmail) = .ok true ∧
      (newsletterHandler true (Store.file ⟨[], []⟩) (signupBody mixedEmail) stamp1).1.status =
        200 ∧
      (newsletterHandler true (Store.file ⟨[], []⟩) (signupBody mixedEmail) stamp1).2 =
        Store.file ⟨[newsletterEntry (.arr [.null, .str (utf16 "@b.co")]) stamp1], []⟩ ∧
      (newsletterHandler true (Store.file ⟨[], []⟩) (signupBody mixedEmail) stamp1).2 ≠
        Store.file ⟨[] ++ [newsletterEntry mixedEmail stamp1], []⟩) := by
  refine ⟨⟨?_, rfl, ?_, rfl, ?_⟩, rfl, rfl, rfl, ?_⟩
  · simp [Store.WellFormed, UniqueEmails, infiniteNewsletterStore]
  · intro r hr h
    simp only [infiniteNewsletterStore, List.mem_singleton] at hr
    subst hr
    simp [newsletterEntry, infiniteNumber] at h
  · intro h
    have hfile : (newsletterHandler true infiniteNewsletterStore.file
        (signupBody (.str (utf16 "a@b.com"))) stamp2).2 =
          Store.file ⟨[newsletterEntry .null stamp1,
            newsletterEntry (.str (utf16 "a@b.com")) stamp2], []⟩ := rfl
    rw [hfile] at h
    simp [Store.file, Store.toJSON, mkObject, SignupRecord.toJSON, newsletterEntry,
      infiniteNewsletterStore, infiniteNumber] at h
  · intro h
    have hfile : (newsletterHandler true (Store.file ⟨[], []⟩) (signupBody mixedEmail) stamp1).2 =
        Store.file ⟨[newsletterEntry (.arr [.null, .str (utf16 "@b.co")]) stamp1], []⟩ := rfl
    rw [hfile] at h
    simp [Store.file, Store.toJSON, mkObject, SignupRecord.toJSON, newsletterEntry,
      mixedEmail, infiniteNumber] at h

/-- C5, amended: for every store that holds no non-finite number (JSON
serialisation leaves it as it is, as it does every store the server wrote) and
every valid string email that no entry of the newsletter list carries, the
newsletter handler answers 200 with `success: true` and the fixed message, and
the store it writes is the old store with the one entry
`{email, timestamp: now, source: "newsletter"}` appended at the end of the
newsletter list, every stored entry unchanged and in place (the file keeps
its old content when the disk refuses the write). -/
theorem newsletter_signup_appends (diskOk : Bool) (st : Store) (body : JSValue)
    (now : JSString) (t : JSString) (hst : st.saved = st)
    (hbody : getProp body (utf16 "email") = .ok (some (.str t)))
    (hvalid : isValidEmail (some (.str t)) = .ok true)
    (hnew : ∀ r ∈ st.newsletter, r.email ≠ .str t) :
    newsletterHandler diskOk st.file body now =
      (⟨200, .obj [(utf16 "success", .bool true),
          (utf16 "message", .str (utf16 "Thank you for subscribing! We\x27ll be in touch soon."))]⟩,
        if diskOk then
          Store.file ⟨st.newsletter ++ [⟨.str t, now, utf16 "newsletter", none⟩], st.discount⟩
        else st.file) := by
  rw [newsletterHandler_valid diskOk st body now (.str t) hbody hvalid,
    knownEmail_false_of_absent (.str t) st.newsletter hnew,
    saved_newsletter_append st (newsletterEntry (.str t) now) hst rfl]
  rfl

/-- C5 at a concrete input: `a@b.com` signed up on a store that already holds
the entry of `x@y.com` in each list; the old entries are kept. -/
theorem newsletter_signup_appends_witness :
    newsletterHandler true oneEntryStore.file (signupBody (.str (utf16 "a@b.com"))) stamp2 =
      (⟨200, .obj [(utf16 "success", .bool true),
          (utf16 "message", .str (utf16 "Thank you for subscribing! We\x27ll be in touch soon."))]⟩,
        Store.file ⟨[⟨.str (utf16 "x@y.com"), stamp1, utf16 "newsletter", none⟩,
            ⟨.str (utf16 "a@b.com"), stamp2, utf16 "newsletter", none⟩],
          [⟨.str (utf16 "x@y.com"), stamp1, utf16 "discount_popup", some (utf16 "SOURDOUGH10")⟩]⟩) :=
  newsletter_signup_appends true oneEntryStore (signupBody (.str (utf16 "a@b.com"))) stamp2
    (utf16 "a@b.com") rfl rfl rfl
    (by
      intro r hr h
      simp only [oneEntryStore, List.mem_singleton] at hr
      subst hr
      have hne : utf16 "x@y.com" ≠ utf16 "a@b.com" := by decide
      exact hne (JSON.str.inj h))

theorem getProp_written (fields : List (JSString × JSON)) (key : JSString) (old : List JSON)
    (item : JSON) (h : lookup key fields = some (.arr old)) :
    getProp (some (jsonStringify (withField (.obj fields) key (.arr (old ++ [item]))))) key =
      .ok (some (.arr (old.map jsonStringify ++ [jsonStringify item]))) := by
  simp only [withField, jsonStringify_obj, getProp, lookup_stringifyFields,
    lookup_replaceField key _ _ fields h, Option.map_some', jsonStringify_arr, List.map_append,
    List.map_cons, List.map_nil]

theorem jsonStringify_discountRecord (e : JSON) (now : JSString) :
    jsonStringify (discountRecord (some e) now) =
      .obj [(utf16 "email", jsonStringify e), (utf16 "timestamp", .str now),
        (utf16 "source", .str (utf16 "discount_popup")),
        (utf16 "discountCode", .str (utf16 "SOURDOUGH10"))] := rfl

/-- C6: whenever the discount handler answers with success (status 200),
whatever the file held and whatever the email, the response is
`{success: true, message, discountCode: "SOURDOUGH10"}` with a message that
contains `SOURDOUGH10`, and the discount list of the document written is the
list read (as serialised) followed by one entry
`{email, timestamp, source: "discount_popup", discountCode: "SOURDOUGH10"}`;
the file keeps its content when the disk refuses the write. -/
theorem discount_code_constant (diskOk : Bool) (file : FileState) (body : JSValue)
    (now : JSString) (hok : (discountHandler diskOk file body now).1.status = 200) :
    (discountHandler diskOk file body now).1.body =
        .obj [(utf16 "success", .bool true),
          (utf16 "message", .str (utf16 "Thanks! Your 10% discount code is: SOURDOUGH10")),
          (utf16 "discountCode", .str (utf16 "SOURDOUGH10"))] ∧
      utf16 "SOURDOUGH10" <:+: utf16 "Thanks! Your 10% discount code is: SOURDOUGH10" ∧
      ∃ (e : JSON) (old : List JSON),
        getProp body (utf16 "email") = .ok (some e) ∧
        getProp (some file.document) (utf16 "discount") = .ok (some (.arr old)) ∧
        (diskOk = true → ∃ doc, (discountHandler diskOk file body now).2 = .holds doc ∧
          getProp (some doc) (utf16 "discount") =
            .ok (some (.arr (old.map jsonStringify ++ [.obj [(utf16 "email", jsonStringify e),
                (utf16 "timestamp", .str now), (utf16 "source", .str (utf16 "discount_popup")),
                (utf16 "discountCode", .str (utf16 "SOURDOUGH10"))]]))))
        ∧ (diskOk = false → (discountHandler diskOk file body now).2 = file) := by
  have hread : readEmails file = .ok file.document := by
    cases file <;> rfl
  generalize file.document = emails at hread ⊢
  unfold discountHandler discountTry at hok ⊢
  cases hbody : getProp body (utf16 "email") with
  | error err => simp [hbody, orInternalError, sendJson] at hok
  | ok email =>
    cases hrej : rejectsEmail email with
    | error err => simp [hbody, hrej, orInternalError, sendJson] at hok
    | ok rej =>
      cases rej with
      | true => simp [hbody, hrej, orInternalError, sendJson] at hok
      | false =>
        have hvalid := (rejectsEmail_false_iff email).mp hrej
        cases email with
        | none =>
          have hfalse : isValidEmail none = .ok false := rfl
          exact (ok_true_ne_ok_false (hvalid.symm.trans hfalse)).elim
        | some e =>
          cases hlist : getProp (some emails) (utf16 "discount") with
          | error err => simp [hbody, hrej, hread, hlist, orInternalError, sendJson] at hok
          | ok target =>
            cases hfind : arrayFind target (sameEmail (some e)) with
            | error err =>
                simp [hbody, hrej, hread, hlist, hfind, orInternalError, sendJson] at hok
            | ok found =>
              cases hfound : toBoolean found with
              | true =>
                  simp [hbody, hrej, hread, hlist, hfind, hfound, orInternalError, sendJson]
                    at hok
              | false =>
                match target, hlist, hfind with
                | some (.arr old), hlist, hfind =>
                  have hobj : ∃ fields, emails = .obj fields ∧
                      lookup (utf16 "discount") fields = some (.arr old) := by
                    cases emails with
                    | obj fields =>
                        refine ⟨fields, rfl, ?_⟩
                        simpa [getProp] using hlist
                    | null => simp [getProp] at hlist
                    | bool b => simp [getProp] at hlist
                    | num t => simp [getProp] at hlist
                    | str t => simp [getProp] at hlist
                    | arr items => simp [getProp] at hlist
                  obtain ⟨fields, rfl, hlook⟩ := hobj
                  have hwritten := getProp_written fields (utf16 "discount") old
                    (discountRecord (some e) now) hlook
                  rw [jsonStringify_discountRecord] at hwritten
                  refine ⟨?_, ⟨utf16 "Thanks! Your 10% discount code is: ", [], rfl⟩, e, old,
                    rfl, rfl, ?_, ?_⟩
                  · cases diskOk <;>
                      simp only [hrej, hread, hlist, hfind, hfound, arrayPush, writeEmails,
                        writeFile, tryCatch, orInternalError] <;> rfl
                  · intro hd
                    subst hd
                    refine ⟨_, ?_, hwritten⟩
                    simp only [hrej, hread, hlist, hfind, hfound, arrayPush, writeEmails,
                      writeFile, tryCatch, orInternalError]
                    rfl
                  · intro hd
                    subst hd
                    simp only [hrej, hread, hlist, hfind, hfound, arrayPush, writeEmails,
                      writeFile, tryCatch, orInternalError]
                    rfl
                | none, _, hfind => simp [arrayFind] at hfind
                | some .null, _, hfind => simp [arrayFind] at hfind
                | some (.bool _), _, hfind => simp [arrayFind] at hfind
                | some (.num _), _, hfind => simp [arrayFind] at hfind
                | some (.str _), _, hfind => simp [arrayFind] at hfind
                | some (.obj _), _, hfind => simp [arrayFind] at hfind

/-- C6 at a concrete input: `c@d.com` signed up on a file whose discount list
holds one entry with the email `1e400`; the file afterwards lists that entry
with the email `null`, then the new entry with the constant code. -/
theorem discount_code_constant_witness :
    ∃ doc, (discountHandler true infiniteDiscountStore.file
        (signupBody (.str (utf16 "c@d.com"))) stamp2).2 = .holds doc ∧
      getProp (some doc) (utf16 "discount") =
        .ok (some (.arr [
          .obj [(utf16 "email", .null), (utf16 "timestamp", .str stamp1),
            (utf16 "source", .str (utf16 "discount_popup")),
            (utf16 "discountCode", .str (utf16 "SOURDOUGH10"))],
          .obj [(utf16 "email", .str (utf16 "c@d.com")), (utf16 "timestamp", .str stamp2),
            (utf16 "source", .str (utf16 "discount_popup")),
            (utf16 "discountCode", .str (utf16 "SOURDOUGH10"))]])) := by
  obtain ⟨-, -, e, old, he, hold, hwrite, -⟩ :=
    discount_code_constant true infiniteDiscountStore.file
      (signupBody (.str (utf16 "c@d.com"))) stamp2 rfl
  have he1 : getProp (signupBody (.str (utf16 "c@d.com"))) (utf16 "email") =
      .ok (some (.str (utf16 "c@d.com"))) := rfl
  have hold1 : getProp (some infiniteDiscountStore.file.document) (utf16 "discount") =
      .ok (some (.arr [(discountEntry infiniteNumber stamp1).toJSON])) := rfl
  rw [he1] at he
  rw [hold1] at hold
  injection he with he
  injection he with he
  injection hold with hold
  injection hold with hold
  injection hold with hold
  subst he
  subst hold
  exact hwrite rfl

/-! ## Listing -/

theorem emailsFor_cons (b : Bool) (s : Signup) (rest : List Signup) :
    emailsFor b (s :: rest) =
      if s.forDiscount = b then s.email :: emailsFor b rest else emailsFor b rest := by
  unfold emailsFor
  by_cases h : s.forDiscount = b <;> simp [List.filter_cons, h]

theorem store_saved_append_newsletter (n d : List SignupRecord) (r : SignupRecord) :
    Store.saved ⟨(Store.saved ⟨n, d⟩).newsletter ++ [r], (Store.saved ⟨n, d⟩).discount⟩ =
      Store.saved ⟨n ++ [r], d⟩ := by
  simp [Store.saved, List.map_map, Function.comp_def, saved_saved]

theorem store_saved_append_discount (n d : List SignupRecord) (r : SignupRecord) :
    Store.saved ⟨(Store.saved ⟨n, d⟩).newsletter, (Store.saved ⟨n, d⟩).discount ++ [r]⟩ =
      Store.saved ⟨n, d ++ [r]⟩ := by
  simp [Store.saved, List.map_map, Function.comp_def, saved_saved]

theorem serveAll_signups (sigs : List Signup) :
    ∀ n d : List SignupRecord, (∀ s ∈ sigs, isValidEmail (some s.email) = .ok true) →
      (n.map SignupRecord.email ++ emailsFor false sigs).Nodup →
      (d.map SignupRecord.email ++ emailsFor true sigs).Nodup →
      serveAll true (Store.file (Store.saved ⟨n, d⟩)) (sigs.map Signup.request) =
        Store.file (Store.saved ⟨n ++ newsletterEntries sigs, d ++ discountEntries sigs⟩) := by
  induction sigs with
  | nil =>
      intro n d _ _ _
      simp [serveAll, newsletterEntries, discountEntries]
  | cons s rest ih =>
      intro n d hvalid hN hD
      have hs := hvalid s (List.mem_cons_self s rest)
      have hrest : ∀ t ∈ rest, isValidEmail (some t.email) = .ok true :=
        fun t ht => hvalid t (List.mem_cons_of_mem s ht)
      cases hfd : s.forDiscount with
      | false =>
          rw [emailsFor_cons, if_pos hfd] at hN
          rw [emailsFor_cons, if_neg (by simp [hfd])] at hD
          have habsent : ∀ r ∈ n, r.email ≠ s.email := by
            intro r hr heq
            have hdis := (List.nodup_append.mp hN).2.2
            exact hdis (List.mem_map_of_mem SignupRecord.email hr) (by simp [heq])
          have hstep : handle true (Store.file (Store.saved ⟨n, d⟩)) s.request =
              (⟨200, newsletterSuccess⟩,
                Store.file (Store.saved ⟨n ++ [newsletterEntry s.email s.now], d⟩)) := by
            have hreq : s.request = .newsletter (signupBody s.email) s.now := by
              simp [Signup.request, hfd]
            rw [hreq]
            show newsletterHandler true (Store.file (Store.saved ⟨n, d⟩))
              (signupBody s.email) s.now = _
            rw [newsletterHandler_valid true _ (signupBody s.email) s.now s.email rfl hs]
            have hk : knownEmail (some s.email) (Store.saved ⟨n, d⟩).newsletter = false :=
              knownEmail_saved_false s.email n hs habsent
            rw [hk, store_saved_append_newsletter]
            rfl
          simp only [List.map_cons, serveAll, hstep]
          rw [ih (n ++ [newsletterEntry s.email s.now]) d hrest
            (by simpa [newsletterEntry] using hN) hD]
          simp [newsletterEntries, discountEntries, List.filter_cons, hfd]
      | true =>
          rw [emailsFor_cons, if_neg (by simp [hfd])] at hN
          rw [emailsFor_cons, if_pos hfd] at hD
          have habsent : ∀ r ∈ d, r.email ≠ s.email := by
            intro r hr heq
            have hdis := (List.nodup_append.mp hD).2.2
            exact hdis (List.mem_map_of_mem SignupRecord.email hr) (by simp [heq])
          have hstep : handle true (Store.file (Store.saved ⟨n, d⟩)) s.request =
              (⟨200, discountSuccess⟩,
                Store.file (Store.saved ⟨n, d ++ [discountEntry s.email s.now]⟩)) := by
            have hreq : s.request = .discount (signupBody s.email) s.now := by
              simp [Signup.request, hfd]
            rw [hreq]
            show discountHandler true (Store.file (Store.saved ⟨n, d⟩))
              (signupBody s.email) s.now = _
            rw [discountHandler_valid true _ (signupBody s.email) s.now s.email rfl hs]
            have hk : knownEmail (some s.email) (Store.saved ⟨n, d⟩).discount = false :=
              knownEmail_saved_false s.email d hs habsent
            rw [hk, store_saved_append_discount]
            rfl
          simp only [List.map_cons, serveAll, hstep]
          rw [ih n (d ++ [discountEntry s.email s.now]) hrest hN
            (by simpa [discountEntry] using hD)]
          simp [newsletterEntries, discountEntries, List.filter_cons, hfd]

/-- C7: starting from the empty store, after any sequence of signups (each
persisted) whose newsletter emails are valid and pairwise distinct and whose
discount emails are valid and pairwise distinct, the file holds one entry per
signup in arrival order, and the list-all handler answers 200 with
`success: true`, `newsletter_count` and `discount_count` the decimal numerals of
the numbers of newsletter and discount signups, and the two lists exactly as the
file holds them, of those lengths. -/
theorem listing_after_signups (sigs : List Signup)
    (hvalid : ∀ s ∈ sigs, isValidEmail (some s.email) = .ok true)
    (hN : (emailsFor false sigs).Nodup) (hD : (emailsFor true sigs).Nodup) :
    serveAll true (.holds emptyDoc) (sigs.map Signup.request) =
        .holds (.obj [
          (utf16 "newsletter",
            .arr (((newsletterEntries sigs).map SignupRecord.saved).map SignupRecord.toJSON)),
          (utf16 "discount",
            .arr (((discountEntries sigs).map SignupRecord.saved).map SignupRecord.toJSON))]) ∧
      (listAllHandler (serveAll true (.holds emptyDoc) (sigs.map Signup.request))).1 =
        ⟨200, .obj [(utf16 "success", .bool true),
          (utf16 "data", .obj [
            (utf16 "newsletter_count",
              .num (natText (sigs.filter (fun s => !s.forDiscount)).length)),
            (utf16 "discount_count",
              .num (natText (sigs.filter (fun s => s.forDiscount)).length)),
            (utf16 "newsletter",
              .arr (((newsletterEntries sigs).map SignupRecord.saved).map SignupRecord.toJSON)),
            (utf16 "discount",
              .arr (((discountEntries sigs).map SignupRecord.saved).map
                SignupRecord.toJSON))])]⟩ ∧
      decimalValue (natText (sigs.filter (fun s => !s.forDiscount)).length) =
        (sigs.filter (fun s => !s.forDiscount)).length ∧
      decimalValue (natText (sigs.filter (fun s => s.forDiscount)).length) =
        (sigs.filter (fun s => s.forDiscount)).length ∧
      (((newsletterEntries sigs).map SignupRecord.saved).map SignupRecord.toJSON).length =
        (sigs.filter (fun s => !s.forDiscount)).length ∧
      (((discountEntries sigs).map SignupRecord.saved).map SignupRecord.toJSON).length =
        (sigs.filter (fun s => s.forDiscount)).length := by
  have hrun := serveAll_signups sigs [] [] hvalid (by simpa using hN) (by simpa using hD)
  have hfile : Store.file (Store.saved ⟨[], []⟩) = .holds emptyDoc := rfl
  rw [hfile] at hrun
  simp only [List.nil_append] at hrun
  refine ⟨hrun, ?_, decimalValue_natText _, decimalValue_natText _,
    by simp [newsletterEntries], by simp [discountEntries]⟩
  rw [hrun, listAllHandler_store]
  simp [Store.saved, newsletterEntries, discountEntries, List.map_map, Function.comp_def,
    saved_saved]

/-- C7 at a concrete input: two newsletter signups and one discount signup;
list-all reports the counts `2` and `1` and the three entries. -/
theorem listing_after_signups_witness :
    (listAllHandler (serveAll true (.holds emptyDoc) (sampleSignups.map Signup.request))).1 =
      ⟨200, .obj [(utf16 "success", .bool true),
        (utf16 "data", .obj [
          (utf16 "newsletter_count", .num (utf16 "2")),
          (utf16 "discount_count", .num (utf16 "1")),
          (utf16 "newsletter", .arr [
            .obj [(utf16 "email", .str (utf16 "a@b.com")), (utf16 "timestamp", .str stamp1),
              (utf16 "source", .str (utf16 "newsletter"))],
            .obj [(utf16 "email", .str (utf16 "x@y.com")), (utf16 "timestamp", .str stamp3),
              (utf16 "source", .str (utf16 "newsletter"))]]),
          (utf16 "discount", .arr [
            .obj [(utf16 "email", .str (utf16 "c@d.com")), (utf16 "timestamp", .str stamp2),
              (utf16 "source", .str (utf16 "discount_popup")),
              (utf16 "discountCode", .str (utf16 "SOURDOUGH10"))]])])]⟩ := by
  have hne : utf16 "a@b.com" ≠ utf16 "x@y.com" := by decide
  have h := (listing_after_signups sampleSignups
    (by
      intro s hs
      simp only [sampleSignups, List.mem_cons, List.mem_singleton, List.not_mem_nil,
        or_false] at hs
      rcases hs with rfl | rfl | rfl <;> rfl)
    (by
      show ([.str (utf16 "a@b.com"), .str (utf16 "x@y.com")] : List JSON).Nodup
      simp [hne])
    (List.nodup_singleton (JSON.str (utf16 "c@d.com")))).2.1
  have h2 : natText (sampleSignups.filter (fun s => !s.forDiscount)).length = utf16 "2" := by
    have hlen : (sampleSignups.filter (fun s => !s.forDiscount)).length = 2 := rfl
    have hu : utf16 "2" = [50] := rfl
    rw [hlen, hu]
    simp [natText]
  have h1 : natText (sampleSignups.filter (fun s => s.forDiscount)).length = utf16 "1" := by
    have hlen : (sampleSignups.filter (fun s => s.forDiscount)).length = 1 := rfl
    have hu : utf16 "1" = [49] := rfl
    rw [hlen, hu]
    simp [natText]
  rw [h2, h1] at h
  exact h

/-! ## Independence of the two lists -/

theorem newsletterHandler_independent (diskOk : Bool) (n : List SignupRecord) (body : JSValue)
    (now : JSString) :
    ∃ (resp : Response) (n1 : List SignupRecord) (wrote : Bool), ∀ d : List SignupRecord,
      newsletterHandler diskOk (Store.file ⟨n, d⟩) body now =
        (resp, if wrote then Store.file ⟨n1, d.map SignupRecord.saved⟩ else Store.file ⟨n, d⟩) := by
  cases hbody : getProp body (utf16 "email") with
  | error err =>
      exact ⟨⟨500, failureBody "Something went wrong. Please try again."⟩, n, false,
        fun d => by
          simp only [newsletterHandler, newsletterTry, hbody, orInternalError, sendJson_failureBody]
          rfl⟩
  | ok email =>
    cases hrej : rejectsEmail email with
    | error err =>
        exact ⟨⟨500, failureBody "Something went wrong. Please try again."⟩, n, false,
          fun d => by
            simp only [newsletterHandler, newsletterTry, hbody, hrej, orInternalError, sendJson_failureBody]
            rfl⟩
    | ok rej =>
      cases rej with
      | true =>
          exact ⟨⟨400, failureBody "Please provide a valid email address"⟩, n, false,
            fun d => newsletterHandler_rejected diskOk _ body email now hbody hrej⟩
      | false =>
        have hvalid := (rejectsEmail_false_iff email).mp hrej
        cases email with
        | none =>
          have hfalse : isValidEmail none = .ok false := rfl
          exact (ok_true_ne_ok_false (hvalid.symm.trans hfalse)).elim
        | some e =>
          cases hk : knownEmail (some e) n with
          | true =>
              refine ⟨⟨400, failureBody "This email is already subscribed to our newsletter"⟩, n, false, fun d => ?_⟩
              rw [newsletterHandler_valid diskOk ⟨n, d⟩ body now e hbody hvalid]
              simp only [hk, if_true]
              rfl
          | false =>
              cases diskOk with
              | true =>
                  refine ⟨⟨200, newsletterSuccess⟩, (n ++ [newsletterEntry e now]).map SignupRecord.saved, true,
                    fun d => ?_⟩
                  rw [newsletterHandler_valid true ⟨n, d⟩ body now e hbody hvalid]
                  simp [hk, Store.saved]
              | false =>
                  refine ⟨⟨200, newsletterSuccess⟩, n, false, fun d => ?_⟩
                  rw [newsletterHandler_valid false ⟨n, d⟩ body now e hbody hvalid]
                  simp [hk]

theorem discountHandler_independent (diskOk : Bool) (d : List SignupRecord) (body : JSValue)
    (now : JSString) :
    ∃ (resp : Response) (d1 : List SignupRecord) (wrote : Bool), ∀ n : List SignupRecord,
      discountHandler diskOk (Store.file ⟨n, d⟩) body now =
        (resp, if wrote then Store.file ⟨n.map SignupRecord.saved, d1⟩ else Store.file ⟨n, d⟩) := by
  cases hbody : getProp body (utf16 "email") with
  | error err =>
      exact ⟨⟨500, failureBody "Something went wrong. Please try again."⟩, d, false,
        fun n => by
          simp only [discountHandler, discountTry, hbody, orInternalError, sendJson_failureBody]
          rfl⟩
  | ok email =>
    cases hrej : rejectsEmail email with
    | error err =>
        exact ⟨⟨500, failureBody "Something went wrong. Please try again."⟩, d, false,
          fun n => by
            simp only [discountHandler, discountTry, hbody, hrej, orInternalError, sendJson_failureBody]
            rfl⟩
    | ok rej =>
      cases rej with
      | true =>
          exact ⟨⟨400, failureBody "Please provide a valid email address"⟩, d, false,
            fun n => discountHandler_rejected diskOk _ body email now hbody hrej⟩
      | false =>
        have hvalid := (rejectsEmail_false_iff email).mp hrej
        cases email with
        | none =>
          have hfalse : isValidEmail none = .ok false := rfl
          exact (ok_true_ne_ok_false (hvalid.symm.trans hfalse)).elim
        | some e =>
          cases hk : knownEmail (some e) d with
          | true =>
              refine ⟨⟨400, failureBody "This email has already been used for the discount"⟩, d, false, fun n => ?_⟩
              rw [discountHandler_valid diskOk ⟨n, d⟩ body now e hbody hvalid]
              simp only [hk, if_true]
              rfl
          | false =>
              cases diskOk with
              | true =>
                  refine ⟨⟨200, discountSuccess⟩, (d ++ [discountEntry e now]).map SignupRecord.saved, true,
                    fun n => ?_⟩
                  rw [discountHandler_valid true ⟨n, d⟩ body now e hbody hvalid]
                  simp [hk, Store.saved]
              | false =>
                  refine ⟨⟨200, discountSuccess⟩, d, false, fun n => ?_⟩
                  rw [discountHandler_valid false ⟨n, d⟩ body now e hbody hvalid]
                  simp [hk]

theorem occursOnce_append_new (e : JSON) (l : List SignupRecord) (r : SignupRecord)
    (hr : r.email = e) (hl : ∀ x ∈ l, x.email ≠ e) : OccursOnce e (l ++ [r]) :=
  ⟨l, r, [], rfl, hr, hl, fun x hx => absurd hx (List.not_mem_nil x)⟩

theorem map_saved_of_stable (l : List SignupRecord)
    (h : ∀ r ∈ l, jsonStringify r.email = r.email) : l.map SignupRecord.saved = l := by
  induction l with
  | nil => rfl
  | cons r rest ih =>
      have hr : r.saved = r := by
        obtain ⟨e, t, src, code⟩ := r
        have he := h ⟨e, t, src, code⟩ (List.mem_cons_self _ _)
        simp only [SignupRecord.saved] at he ⊢
        rw [he]
      rw [List.map_cons, hr, ih (fun x hx => h x (List.mem_cons_of_mem r hx))]

/-- C8, as stated, fails on a well-formed store whose discount list holds one
entry with the email `1e400`: a newsletter signup of `a@b.com` succeeds and
rewrites the file, and the discount entry comes back with the email `null`, so
the discount list is not left as it was, whatever the newsletter list. -/
theorem newsletter_signup_rewrites_discount :
    infiniteDiscountStore.WellFormed ∧
    (newsletterHandler true infiniteDiscountStore.file
        (signupBody (.str (utf16 "a@b.com"))) stamp2).2 =
      Store.file ⟨[newsletterEntry (.str (utf16 "a@b.com")) stamp2],
        [discountEntry .null stamp1]⟩ ∧
    ¬ ∃ (resp : Response) (n1 : List SignupRecord),
      newsletterHandler true infiniteDiscountStore.file
          (signupBody (.str (utf16 "a@b.com"))) stamp2 =
        (resp, Store.file ⟨n1, infiniteDiscountStore.discount⟩) := by
  refine ⟨?_, rfl, ?_⟩
  · simp [Store.WellFormed, UniqueEmails, infiniteDiscountStore]
  · rintro ⟨resp, n1, h⟩
    have hfile : (newsletterHandler true infiniteDiscountStore.file
        (signupBody (.str (utf16 "a@b.com"))) stamp2).2 =
          Store.file ⟨[newsletterEntry (.str (utf16 "a@b.com")) stamp2],
            [discountEntry .null stamp1]⟩ := rfl
    rw [h] at hfile
    simp [Store.file, Store.toJSON, mkObject, SignupRecord.toJSON, discountEntry,
      infiniteDiscountStore, infiniteNumber] at hfile

/-- C8, amended: the response of a newsletter signup and the newsletter list it
leaves do not depend on the discount list, which it leaves either untouched or,
when it writes, as JSON serialisation leaves it (unchanged when the list holds
no non-finite number), and symmetrically for a discount signup; and on a store
that holds no non-finite number, for a valid string email carried by no entry
of either list, signing it up to the newsletter and then to the discount, or
in the other order, succeeds both times and leaves the email exactly once in
each list. -/
theorem lists_independent :
    (∀ (diskOk : Bool) (n : List SignupRecord) (body : JSValue) (now : JSString),
      ∃ (resp : Response) (n1 : List SignupRecord) (wrote : Bool), ∀ d : List SignupRecord,
        newsletterHandler diskOk (Store.file ⟨n, d⟩) body now =
          (resp, if wrote then Store.file ⟨n1, d.map SignupRecord.saved⟩
            else Store.file ⟨n, d⟩)) ∧
    (∀ (diskOk : Bool) (d : List SignupRecord) (body : JSValue) (now : JSString),
      ∃ (resp : Response) (d1 : List SignupRecord) (wrote : Bool), ∀ n : List SignupRecord,
        discountHandler diskOk (Store.file ⟨n, d⟩) body now =
          (resp, if wrote then Store.file ⟨n.map SignupRecord.saved, d1⟩
            else Store.file ⟨n, d⟩)) ∧
    (∀ l : List SignupRecord, (∀ r ∈ l, jsonStringify r.email = r.email) →
      l.map SignupRecord.saved = l) ∧
    (∀ (st : Store) (t : JSString) (body : JSValue) (t1 t2 : JSString), st.saved = st →
      getProp body (utf16 "email") = .ok (some (.str t)) →
      isValidEmail (some (.str t)) = .ok true →
      (∀ r ∈ st.newsletter, r.email ≠ .str t) → (∀ r ∈ st.discount, r.email ≠ .str t) →
      (newsletterHandler true st.file body t1).1 =
          ⟨200, .obj [(utf16 "success", .bool true),
            (utf16 "message", .str (utf16 "Thank you for subscribing! We\x27ll be in touch soon."))]⟩ ∧
        discountHandler true (newsletterHandler true st.file body t1).2 body t2 =
          (⟨200, .obj [(utf16 "success", .bool true),
            (utf16 "message", .str (utf16 "Thanks! Your 10% discount code is: SOURDOUGH10")),
            (utf16 "discountCode", .str (utf16 "SOURDOUGH10"))]⟩,
            Store.file ⟨st.newsletter ++ [newsletterEntry (.str t) t1],
              st.discount ++ [discountEntry (.str t) t2]⟩) ∧
        OccursOnce (.str t) (st.newsletter ++ [newsletterEntry (.str t) t1]) ∧
        OccursOnce (.str t) (st.discount ++ [discountEntry (.str t) t2]) ∧
        (discountHandler true st.file body t1).1 =
          ⟨200, .obj [(utf16 "success", .bool true),
            (utf16 "message", .str (utf16 "Thanks! Your 10% discount code is: SOURDOUGH10")),
            (utf16 "discountCode", .str (utf16 "SOURDOUGH10"))]⟩ ∧
        newsletterHandler true (discountHandler true st.file body t1).2 body t2 =
          (⟨200, .obj [(utf16 "success", .bool true),
            (utf16 "message", .str (utf16 "Thank you for subscribing! We\x27ll be in touch soon."))]⟩,
            Store.file ⟨st.newsletter ++ [newsletterEntry (.str t) t2],
              st.discount ++ [discountEntry (.str t) t1]⟩) ∧
        OccursOnce (.str t) (st.newsletter ++ [newsletterEntry (.str t) t2]) ∧
        OccursOnce (.str t) (st.discount ++ [discountEntry (.str t) t1])) := by
  refine ⟨newsletterHandler_independent, discountHandler_independent, map_saved_of_stable, ?_⟩
  intro st t body t1 t2 hst hbody hvalid hn hd
  have kn := knownEmail_false_of_absent (.str t) st.newsletter hn
  have kd := knownEmail_false_of_absent (.str t) st.discount hd
  have sn := saved_newsletter_append st (newsletterEntry (.str t) t1) hst rfl
  have sd := saved_discount_append st (discountEntry (.str t) t1) hst rfl
  have n1 : newsletterHandler true st.file body t1 =
      (⟨200, newsletterSuccess⟩,
        Store.file ⟨st.newsletter ++ [newsletterEntry (.str t) t1], st.discount⟩) := by
    rw [newsletterHandler_valid true st body t1 (.str t) hbody hvalid, kn, sn]
    rfl
  have d1 : discountHandler true st.file body t1 =
      (⟨200, discountSuccess⟩,
        Store.file ⟨st.newsletter, st.discount ++ [discountEntry (.str t) t1]⟩) := by
    rw [discountHandler_valid true st body t1 (.str t) hbody hvalid, kd, sd]
    rfl
  refine ⟨by rw [n1]; rfl, ?_, occursOnce_append_new _ _ _ rfl hn,
    occursOnce_append_new _ _ _ rfl hd, by rw [d1]; rfl, ?_,
    occursOnce_append_new _ _ _ rfl hn, occursOnce_append_new _ _ _ rfl hd⟩
  · rw [n1]
    show discountHandler true
      (Store.file ⟨st.newsletter ++ [newsletterEntry (.str t) t1], st.discount⟩) body t2 = _
    rw [discountHandler_valid true _ body t2 (.str t) hbody hvalid]
    simp only [kd]
    rw [saved_discount_append ⟨st.newsletter ++ [newsletterEntry (.str t) t1], st.discount⟩
      (discountEntry (.str t) t2) (by rw [sn]) rfl]
    rfl
  · rw [d1]
    show newsletterHandler true
      (Store.file ⟨st.newsletter, st.discount ++ [discountEntry (.str t) t1]⟩) body t2 = _
    rw [newsletterHandler_valid true _ body t2 (.str t) hbody hvalid]
    simp only [kn]
    rw [saved_newsletter_append ⟨st.newsletter, st.discount ++ [discountEntry (.str t) t1]⟩
      (newsletterEntry (.str t) t2) (by rw [sd]) rfl]
    rfl

/-- C8 at a concrete input: `a@b.com` signed up to the newsletter and then to
the discount on a store that already holds the entry of `x@y.com` in each
list. -/
theorem lists_independent_witness :
    discountHandler true
        (newsletterHandler true oneEntryStore.file (signupBody (.str (utf16 "a@b.com")))
          stamp2).2
        (signupBody (.str (utf16 "a@b.com"))) stamp3 =
      (⟨200, .obj [(utf16 "success", .bool true),
        (utf16 "message", .str (utf16 "Thanks! Your 10% discount code is: SOURDOUGH10")),
        (utf16 "discountCode", .str (utf16 "SOURDOUGH10"))]⟩,
        Store.file ⟨[newsletterEntry (.str (utf16 "x@y.com")) stamp1,
            newsletterEntry (.str (utf16 "a@b.com")) stamp2],
          [discountEntry (.str (utf16 "x@y.com")) stamp1,
            discountEntry (.str (utf16 "a@b.com")) stamp3]⟩) := by
  have hne : utf16 "x@y.com" ≠ utf16 "a@b.com" := by decide
  exact (lists_independent.2.2.2 oneEntryStore (utf16 "a@b.com")
    (signupBody (.str (utf16 "a@b.com"))) stamp2 stamp3 rfl rfl rfl
    (by
      intro r hr h
      simp only [oneEntryStore, List.mem_singleton] at hr
      subst hr
      exact hne (JSON.str.inj h))
    (by
      intro r hr h
      simp only [oneEntryStore, List.mem_singleton] at hr
      subst hr
      exact hne (JSON.str.inj h))).2.1

/-! ## Reading the store -/

/-- C9, as stated, fails when the file holds the JSON text `{}`: `readEmails`
returns that object, which has neither list. -/
theorem readEmails_returns_listless_document :
    ¬ ∃ doc, readEmails (.holds (.obj [])) = .ok doc ∧ HasBothLists doc := by
  rintro ⟨doc, hread, ⟨items, hitems⟩, -⟩
  have hdoc : doc = .obj [] := by
    have h : readEmails (.holds (.obj [])) = .ok (.obj []) := rfl
    rw [h] at hread
    injection hread with hread
    exact hread.symm
  subst hdoc
  have hnone : getProp (some (.obj [])) (utf16 "newsletter") = .ok none := rfl
  rw [hnone] at hitems
  injection hitems with hitems
  cases hitems

/-- C9, amended: for every state of the backing file `readEmails` raises no
error; when the file is missing, unreadable or not JSON text it returns exactly
`{newsletter: [], discount: []}`, which has both lists; when the file holds
JSON text it returns the parsed document as it is. -/
theorem readEmails_total (file : FileState) :
    readEmails file = .ok (match file with
      | .holds doc => doc
      | _ => emptyDoc) ∧
    emptyDoc = .obj [(utf16 "newsletter", .arr []), (utf16 "discount", .arr [])] ∧
    HasBothLists emptyDoc := by
  refine ⟨?_, rfl, ⟨[], rfl⟩, ⟨[], rfl⟩⟩
  cases file <;> rfl

/-! ## What gets stored -/

/-- C10 at the failing input: on the empty store, the request
`{"email": ["a@b.co"]}` gets the success response from both handlers, and the
entry written carries the array itself as its email, which is not a string. -/
theorem array_email_stored :
    newsletterHandler true (.holds emptyDoc) (signupBody arrayEmail) stamp1 =
      (⟨200, newsletterSuccess⟩,
        .holds (.obj [(utf16 "newsletter", .arr [.obj [(utf16 "email", arrayEmail),
            (utf16 "timestamp", .str stamp1), (utf16 "source", .str (utf16 "newsletter"))]]),
          (utf16 "discount", .arr [])])) ∧
    discountHandler true (.holds emptyDoc) (signupBody arrayEmail) stamp1 =
      (⟨200, discountSuccess⟩,
        .holds (.obj [(utf16 "newsletter", .arr []),
          (utf16 "discount", .arr [.obj [(utf16 "email", arrayEmail),
            (utf16 "timestamp", .str stamp1), (utf16 "source", .str (utf16 "discount_popup")),
            (utf16 "discountCode", .str (utf16 "SOURDOUGH10"))]])])) ∧
    ¬ ∃ s : JSString, arrayEmail = .str s := by
  refine ⟨rfl, rfl, ?_⟩
  rintro ⟨s, hs⟩
  cases hs

end SignupServer
